import Mathlib

/-!
Verification of the blockchain-cache-api data-access layer (src/lib/databaseBackend.js,
src/lib/redisCache.js) and RPC bridge (src/lib/rabbit.js).

The relational store is modelled as an explicit record of table row lists (`DBState`);
SQL queries are embedded by their semantics over those lists (WHERE = filter,
ORDER BY = stable sort, LIMIT = take, MAX = maximum).  The Redis cache is modelled
as an association list from key to (expiry time, value); the `now` parameter stands
for the wall-clock instant of a call, so the Redis `EX ttl` behaviour is
`expiresAt = now + ttl` and a lookup at or past `expiresAt` is a miss.
Promise chains that resolve early on a cache hit are embedded as a short-circuit
returning the cached value: in the source the remaining `.then` callbacks still run
and re-write the same cache key, but the resolved value - the only thing the claims
below are about - is the cached one, a promise being settled by its first resolve.
Fallible operations return `Except Err`.
-/

/-- Error taxonomy of the service, as produced by the reject sites in the source. -/
inductive Err where
  | notFound (msg : String)
  | dataConsistency (msg : String)
  | noPriorOutputs
  | insufficientMixins
  | timeout
  | jsTypeError (msg : String)
  | sqlSyntax
deriving DecidableEq

/-- util.format of 'Internal Data Consistency Error [%s]: %s' (databaseBackend.js
getError helper used by both block assemblers). -/
def getErrorMsg (hash msg : String) : String :=
  "Internal Data Consistency Error [" ++ hash ++ "]: " ++ msg

/-- Association-list lookup, the model of a key/value query. -/
def alistFind {α : Type} (l : List (String × α)) (key : String) : Option α :=
  match l with
  | [] => none
  | (k, v) :: rest => if k = key then some v else alistFind rest key

/-- Association-list upsert, the model of a key/value SET (overwrite semantics). -/
def alistSet {α : Type} (l : List (String × α)) (key : String) (v : α) : List (String × α) :=
  match l with
  | [] => [(key, v)]
  | (k, w) :: rest => if k = key then (k, v) :: rest else (k, w) :: alistSet rest key v

/-- One hex digit, as produced by JavaScript Number.prototype.toString(16). -/
def hexDigit : Nat → Char
  | 0 => '0' | 1 => '1' | 2 => '2' | 3 => '3' | 4 => '4' | 5 => '5' | 6 => '6' | 7 => '7'
  | 8 => '8' | 9 => '9' | 10 => 'a' | 11 => 'b' | 12 => 'c' | 13 => 'd' | 14 => 'e'
  | _ => 'f'

/-- Hex digits of n (most significant first), with structural fuel;
auxiliary for `hexPad2`. -/
def hexDigitsAux : Nat → Nat → List Char
  | 0, _ => []
  | fuel + 1, n =>
    if n < 16 then [hexDigit n] else hexDigitsAux fuel (n / 16) ++ [hexDigit (n % 16)]

/-- JavaScript `n.toString(16).padStart(2, '0')`: the hex rendering of the `type`
column applied by getTransactionInputs / getTransactionOutputs. -/
def hexPad2 (n : Nat) : String :=
  let ds := hexDigitsAux (n + 1) n
  let ds := if ds.length < 2 then '0' :: ds else ds
  String.mk ds

/-- Stable insertion of `a` into `l` before the first element not ≤-related to it;
auxiliary for `sortByB`. -/
def insSorted {α : Type} (le : α → α → Bool) (a : α) : List α → List α
  | [] => [a]
  | b :: bs => if le a b then a :: b :: bs else b :: insSorted le a bs

/-- Stable sort (the model of SQL ORDER BY and of Array.prototype.sort with an
order-respecting comparator). -/
def sortByB {α : Type} (le : α → α → Bool) (l : List α) : List α :=
  l.foldr (insSorted le) []

/-- Promise.all over fallible per-element computations: first rejection wins,
otherwise the list of resolutions in order. -/
def exceptMap {α β : Type} (f : α → Except Err β) : List α → Except Err (List β)
  | [] => .ok []
  | a :: rest =>
    match f a with
    | .error e => .error e
    | .ok b =>
      match exceptMap f rest with
      | .error e => .error e
      | .ok bs => .ok (b :: bs)

/-! ## Relational store model (the MySQL tables used by databaseBackend.js) -/

/-- A row of the `blocks` table (the columns the embedded queries read). -/
structure BlockRow where
  hash : String
  height : Nat
  timestamp : Nat
deriving DecidableEq

/-- A row of the `transactions` table (the columns the embedded queries read);
`unlockTimeString` is the CAST(unlockTime AS CHAR) alias the queries add. -/
structure TxnRow where
  txnHash : String
  blockHash : String
  publicKey : String
  paymentId : String
  unlockTimeString : String
  fee : Int
  totalInputsAmount : Int
  totalOutputsAmount : Int
deriving DecidableEq

/-- A row of the `transaction_inputs` table. -/
structure InputRow where
  txnHash : String
  type : Nat
  amount : Int
  keyImage : String
deriving DecidableEq

/-- A row of the `transaction_outputs` table. -/
structure OutputRow where
  txnHash : String
  type : Nat
  amount : Int
  globalIndex : Nat
  outputIndex : Nat
  key : String
deriving DecidableEq

/-- A row of the `transaction_pool` table (only `txnHash` is read here). -/
structure PoolRow where
  txnHash : String
deriving DecidableEq

/-- A row of the `transaction_outputs_index_maximums` table. -/
structure ToimRow where
  amount : Int
  globalIndex : Nat
deriving DecidableEq

/-- The relational store: one list of rows per table. -/
structure DBState where
  blocks : List BlockRow
  transactions : List TxnRow
  inputs : List InputRow
  outputs : List OutputRow
  pool : List PoolRow
  toim : List ToimRow
deriving DecidableEq

/-! ## Cache Store model for checkCache over JSON-shaped values (claim C9)

RedisCache stores JSON.stringify(value) and get returns JSON.parse(reply), so a
cached value is a JSON value.  `checkCache` (databaseBackend.js lines 40-52) then
treats falsy data, an empty array and a value with no enumerable keys as a miss. -/

/-- A JSON value, the shape of anything RedisCache can round-trip. -/
inductive JVal where
  | jnull
  | jbool (b : Bool)
  | jnum (n : Int)
  | jstr (s : String)
  | jarr (l : List JVal)
  | jobj (l : List (String × JVal))

/-- JavaScript truthiness test `!data` on a JSON value. -/
def jfalsy : JVal → Bool
  | .jnull => true
  | .jbool b => !b
  | .jnum n => n == 0
  | .jstr s => s == ""
  | _ => false

/-- `Array.isArray(data) && data.length === 0`. -/
def jIsEmptyArray : JVal → Bool
  | .jarr l => l.isEmpty
  | _ => false

/-- `Object.keys(data).length` (modern JS: [] for primitives, indices for
arrays and strings, own keys for objects). -/
def jKeysLength : JVal → Nat
  | .jobj l => l.length
  | .jarr l => l.length
  | .jstr s => s.length
  | _ => 0

/-- checkCache (databaseBackend.js lines 40-52) over a configured cache backend
at instant `now`, modelled on the JSON values the backend round-trips: a missing
key, a Redis-expired entry, falsy data, an empty array, or a value with no
enumerable keys all resolve false (a miss). -/
def checkCacheJ (now : Nat) (cache : List (String × (Nat × JVal))) (key : String) :
    Option JVal :=
  match alistFind cache key with
  | none => none
  | some (expiresAt, data) =>
    if expiresAt ≤ now then none
    else if jfalsy data then none
    else if jIsEmptyArray data then none
    else if jKeysLength data == 0 then none
    else some data

/-- RedisCache.set (redisCache.js): a falsy value is rejected (not stored);
anything else is stored under the key with expiry now + ttl, overwriting.
databaseBackend.setCache swallows the rejection, so the cache is simply left
unchanged then. -/
def redisSetJ (now : Nat) (cache : List (String × (Nat × JVal))) (key : String)
    (v : JVal) (ttl : Nat) : List (String × (Nat × JVal)) :=
  if jfalsy v then cache else alistSet cache key (now + ttl, v)

/-! ## Block headers (claim C2)

getLastBlockHeader / getBlockHeaderByHash / getBlockHeaderByHeight
(databaseBackend.js lines 76-155).  Header cache entries are whole header
objects, which always have enumerable keys, so checkCache reduces to presence
plus Redis expiry. -/

/-- A block header: the `blocks` row plus the `depth` and `transactionCount`
fields the DAL adds before caching/returning. -/
structure BlockHeader where
  hash : String
  height : Nat
  timestamp : Nat
  depth : Int
  transactionCount : Nat
deriving DecidableEq

/-- Header cache: key to (expiresAt, header). -/
abbrev HeaderCache := List (String × (Nat × BlockHeader))

/-- checkCache on the header cache at instant `now`: absent or expired is a miss
(a header object always passes the non-empty checks of checkCache). -/
def checkCacheHdr (now : Nat) (cache : HeaderCache) (key : String) : Option BlockHeader :=
  match alistFind cache key with
  | none => none
  | some (expiresAt, v) => if expiresAt ≤ now then none else some v

/-- setCache with TTL on the header cache: Redis SET key value EX ttl. -/
def setCacheHdr (now : Nat) (cache : HeaderCache) (key : String) (v : BlockHeader)
    (ttl : Nat) : HeaderCache :=
  alistSet cache key (now + ttl, v)

/-- 'SELECT * FROM blocks ORDER BY height DESC LIMIT 1': the row of maximum
height (the first such row on a tie, which cannot occur for unique heights). -/
def lastRowQ (db : DBState) : Option BlockRow :=
  db.blocks.foldl
    (fun acc b =>
      match acc with
      | none => some b
      | some a => if b.height > a.height then some b else some a)
    none

/-- 'SELECT COUNT(*) FROM transactions WHERE blockHash = ?'. -/
def txnCountFor (db : DBState) (blockHash : String) : Nat :=
  (db.transactions.filter (fun t => t.blockHash = blockHash)).length

/-- getLastBlockHeader (lines 76-99): cache hit, else top row with depth 0 and
its transaction count, cached for 5 seconds. -/
def getLastBlockHeader (now : Nat) (cache : HeaderCache) (db : DBState) :
    Except Err (BlockHeader × HeaderCache) :=
  match checkCacheHdr now cache "getLastBlockHeader" with
  | some h => .ok (h, cache)
  | none =>
    match lastRowQ db with
    | none => .error (.notFound "No blocks found in backend storage")
    | some b =>
      let obj : BlockHeader :=
        { hash := b.hash, height := b.height, timestamp := b.timestamp, depth := 0,
          transactionCount := txnCountFor db b.hash }
      .ok (obj, setCacheHdr now cache "getLastBlockHeader" obj 5)

/-- getBlockHeaderByHash (lines 101-127): cache hit returns the cached header
unchanged; on a miss the depth is the just-resolved top height minus the row
height, and the header is cached for 10 seconds. -/
def getBlockHeaderByHash (now : Nat) (cache : HeaderCache) (db : DBState)
    (blockHash : String) : Except Err (BlockHeader × HeaderCache) :=
  let key := "getBlockHeaderByHash" ++ blockHash
  match checkCacheHdr now cache key with
  | some h => .ok (h, cache)
  | none =>
    match getLastBlockHeader now cache db with
    | .error e => .error e
    | .ok (top, c1) =>
      match (db.blocks.filter (fun b => b.hash = blockHash)).head? with
      | none => .error (.notFound "Requested block not found")
      | some b =>
        let obj : BlockHeader :=
          { hash := b.hash, height := b.height, timestamp := b.timestamp,
            depth := (top.height : Int) - (b.height : Int),
            transactionCount := txnCountFor db b.hash }
        .ok (obj, setCacheHdr now c1 key obj 10)

/-- getBlockHeaderByHeight (lines 129-155), same shape keyed by height. -/
def getBlockHeaderByHeight (now : Nat) (cache : HeaderCache) (db : DBState)
    (height : Nat) : Except Err (BlockHeader × HeaderCache) :=
  let key := "getBlockHeaderByHeight" ++ toString height
  match checkCacheHdr now cache key with
  | some h => .ok (h, cache)
  | none =>
    match getLastBlockHeader now cache db with
    | .error e => .error e
    | .ok (top, c1) =>
      match (db.blocks.filter (fun b => b.height = height)).head? with
      | none => .error (.notFound "Requested block not found")
      | some b =>
        let obj : BlockHeader :=
          { hash := b.hash, height := b.height, timestamp := b.timestamp,
            depth := (top.height : Int) - (b.height : Int),
            transactionCount := txnCountFor db b.hash }
        .ok (obj, setCacheHdr now c1 key obj 10)

/-! ## Transaction inputs/outputs with cache-aside and trim (claim C8)

getTransactionInputs / getTransactionOutputs (databaseBackend.js lines 318-388).
On a miss the rows are hexed, the non-empty result is cached UNTRIMMED (the
Redis value is serialized before checkTrim later deletes txnHash from the
in-memory objects), and the trimmed rows are resolved; on a hit the cached
(untrimmed) rows are resolved directly, checkTrim never running. -/

/-- A row as returned by getTransactionInputs: txnHash present unless trimmed,
type rendered as a two-digit hex string. -/
structure ApiInputRow where
  txnHash : Option String
  type : String
  amount : Int
  keyImage : String
deriving DecidableEq

/-- A row as returned by getTransactionOutputs. -/
structure ApiOutputRow where
  txnHash : Option String
  type : String
  amount : Int
  globalIndex : Nat
  outputIndex : Nat
  key : String
deriving DecidableEq

/-- Cache of getTransactionInputs results: key to (expiresAt, rows). -/
abbrev InRowsCache := List (String × (Nat × List ApiInputRow))

/-- Cache of getTransactionOutputs results. -/
abbrev OutRowsCache := List (String × (Nat × List ApiOutputRow))

/-- checkCache over a row-list cache: no backend, missing key, expired entry or
empty array are all misses. -/
def checkCacheInRows (now : Nat) (cache : Option InRowsCache) (key : String) :
    Option (List ApiInputRow) :=
  match cache with
  | none => none
  | some c =>
    match alistFind c key with
    | none => none
    | some (expiresAt, v) => if expiresAt ≤ now then none else if v.isEmpty then none else some v

/-- checkCache over the output-row cache. -/
def checkCacheOutRows (now : Nat) (cache : Option OutRowsCache) (key : String) :
    Option (List ApiOutputRow) :=
  match cache with
  | none => none
  | some c =>
    match alistFind c key with
    | none => none
    | some (expiresAt, v) => if expiresAt ≤ now then none else if v.isEmpty then none else some v

/-- setCache on the input-row cache: a pass-through no-op without a backend. -/
def setCacheInRows (now : Nat) (cache : Option InRowsCache) (key : String)
    (v : List ApiInputRow) (ttl : Nat) : Option InRowsCache :=
  match cache with
  | none => none
  | some c => some (alistSet c key (now + ttl, v))

/-- setCache on the output-row cache. -/
def setCacheOutRows (now : Nat) (cache : Option OutRowsCache) (key : String)
    (v : List ApiOutputRow) (ttl : Nat) : Option OutRowsCache :=
  match cache with
  | none => none
  | some c => some (alistSet c key (now + ttl, v))

/-- 'SELECT * FROM transaction_inputs WHERE txnHash = ? ORDER BY amount, keyImage'
with the hex conversion of type applied to every row. -/
def apiInputRows (db : DBState) (hash : String) : List ApiInputRow :=
  (sortByB
      (fun a b =>
        decide (a.amount < b.amount) ||
          (decide (a.amount = b.amount) && decide (a.keyImage ≤ b.keyImage)))
      (db.inputs.filter (fun r => r.txnHash = hash))).map
    (fun r => { txnHash := some r.txnHash, type := hexPad2 r.type, amount := r.amount,
                keyImage := r.keyImage })

/-- 'SELECT * FROM transaction_outputs WHERE txnHash = ? ORDER BY outputIndex'
with the hex conversion of type applied to every row. -/
def apiOutputRows (db : DBState) (hash : String) : List ApiOutputRow :=
  (sortByB (fun a b => decide (a.outputIndex ≤ b.outputIndex))
      (db.outputs.filter (fun r => r.txnHash = hash))).map
    (fun r => { txnHash := some r.txnHash, type := hexPad2 r.type, amount := r.amount,
                globalIndex := r.globalIndex, outputIndex := r.outputIndex, key := r.key })

/-- checkTrim: delete txnHash from every row. -/
def trimInRows (rows : List ApiInputRow) : List ApiInputRow :=
  rows.map (fun r => { r with txnHash := none })

/-- checkTrim for output rows. -/
def trimOutRows (rows : List ApiOutputRow) : List ApiOutputRow :=
  rows.map (fun r => { r with txnHash := none })

/-- getTransactionInputs (lines 318-352): hit resolves the cached rows as-is;
miss computes the rows, resolves [] uncached when empty, else caches the
untrimmed rows for 60 seconds and resolves them trimmed iff `trim`. -/
def getTransactionInputs (now : Nat) (db : DBState) (cache : Option InRowsCache)
    (hash : String) (trim : Bool) : List ApiInputRow × Option InRowsCache :=
  let key := "getTransactionInputs" ++ hash
  match checkCacheInRows now cache key with
  | some rows => (rows, cache)
  | none =>
    let rows := apiInputRows db hash
    if rows.isEmpty then ([], cache)
    else
      let cache1 := setCacheInRows now cache key rows 60
      (if trim then trimInRows rows else rows, cache1)

/-- getTransactionOutputs (lines 354-388), same shape. -/
def getTransactionOutputs (now : Nat) (db : DBState) (cache : Option OutRowsCache)
    (hash : String) (trim : Bool) : List ApiOutputRow × Option OutRowsCache :=
  let key := "getTransactionOutputs" ++ hash
  match checkCacheOutRows now cache key with
  | some rows => (rows, cache)
  | none =>
    let rows := apiOutputRows db hash
    if rows.isEmpty then ([], cache)
    else
      let cache1 := setCacheOutRows now cache key rows 60
      (if trim then trimOutRows rows else rows, cache1)

/-! ## Sync Height Resolver (claim C3)

findCurrentSyncHeight (databaseBackend.js lines 753-795).  The function caches
its numeric result, but checkCache treats a number as a miss (Object.keys of a
number has length 0), so the recompute path below runs on every call and the
cache wrapper is immaterial to the resolved value. -/

/-- Heights of the blocks whose hash is in the known set ('SELECT height FROM
blocks WHERE hash IN (...)'). -/
def matchingHeights (db : DBState) (hashes : List String) : List Nat :=
  (db.blocks.filter (fun b => b.hash ∈ hashes)).map (fun b => b.height)

/-- Heights of the blocks with timestamp at most `ts` ('SELECT height FROM blocks
WHERE timestamp <= ?'). -/
def tsHeights (db : DBState) (ts : Nat) : List Nat :=
  (db.blocks.filter (fun b => b.timestamp ≤ ts)).map (fun b => b.height)

/-- findCurrentSyncHeight: the hash query runs only for a non-empty hash list
and contributes max+1 when it matches ('ORDER BY height DESC LIMIT 1' then
rows.length === 1); the timestamp query runs only for startTimestamp > 0 and
contributes its height when larger; finally startHeight wins if larger still. -/
def findCurrentSyncHeight (db : DBState) (knownBlockHashes : List String)
    (startHeight startTimestamp : Nat) : Nat :=
  let q1 : Option Nat :=
    if knownBlockHashes.isEmpty then none else (matchingHeights db knownBlockHashes).max?
  let s1 : Nat :=
    match q1 with
    | some h => h + 1
    | none => 0
  let q2 : Option Nat :=
    if startTimestamp > 0 then (tsHeights db startTimestamp).max? else none
  let s2 : Nat :=
    match q2 with
    | some h => if h > s1 then h else s1
    | none => s1
  if startHeight > s2 then startHeight else s2

/-! ## Transaction status classification (claim C7)

getTransactionsStatus (databaseBackend.js lines 521-572).  With an empty hash
list the generated 'WHERE ' clause is malformed SQL and the query rejects;
..indexOf === -1 membership tests become list-membership filters. -/

/-- The classification result resolved by getTransactionsStatus. -/
structure TxStatus where
  transactionsInPool : List String
  transactionsInBlock : List String
  transactionsUnknown : List String
deriving DecidableEq

/-- getTransactionsStatus: pool matches, then block matches, then everything
else from the input list. -/
def getTransactionsStatus (db : DBState) (hashes : List String) : Except Err TxStatus :=
  if hashes.isEmpty then .error .sqlSyntax
  else
    let inPool := (db.pool.filter (fun t => t.txnHash ∈ hashes)).map (fun t => t.txnHash)
    let inBlock :=
      (db.transactions.filter (fun t => t.txnHash ∈ hashes)).map (fun t => t.txnHash)
    let unknown := hashes.filter (fun h => h ∉ inPool ∧ h ∉ inBlock)
    .ok { transactionsInPool := inPool, transactionsInBlock := inBlock,
          transactionsUnknown := unknown }

/-- Whether the pool and block lists of a classification share a hash. -/
def txStatusOverlap (s : TxStatus) : Bool :=
  s.transactionsInPool.any (fun h => h ∈ s.transactionsInBlock)

/-! ## Wallet-sync block count normalization and row selection (claim C10) -/

/-- checkBlockCount (databaseBackend.js lines 1440-1446): `blockCount || 100`
(so absent and 0 both become 100), then Math.abs, then cap at 100. -/
def checkBlockCount (blockCount : Option Int) : Nat :=
  let b1 : Int :=
    match blockCount with
    | none => 100
    | some v => if v = 0 then 100 else v
  let b2 : Nat := b1.natAbs
  if b2 > 100 then 100 else b2

/-- The per-block row produced by the wallet-sync block queries: hash, height,
timestamp and the LEFT JOIN transaction count (NULL - `none` - when the block
has no transactions). -/
structure SyncBlockRow where
  blockHash : String
  height : Nat
  timestamp : Nat
  txnCount : Option Nat
deriving DecidableEq

/-- The LEFT JOIN '(SELECT blockHash, COUNT(*) ... GROUP BY blockHash)' column
for one block: NULL when the count is zero. -/
def syncRowOfBlock (db : DBState) (b : BlockRow) : SyncBlockRow :=
  let c := txnCountFor db b.hash
  { blockHash := b.hash, height := b.height, timestamp := b.timestamp,
    txnCount := if c = 0 then none else some c }

/-- The block rows selected by getWalletSyncDataByHeight (lines 797-823):
heights in [scanHeight, scanHeight + blockCount), ordered by height, after
checkBlockCount normalization. -/
def getWalletSyncDataByHeightRows (db : DBState) (scanHeight : Nat)
    (blockCount : Option Int) : List SyncBlockRow :=
  let bc := checkBlockCount blockCount
  (sortByB (fun a b => decide (a.height ≤ b.height))
      (db.blocks.filter (fun b => scanHeight ≤ b.height ∧ b.height < scanHeight + bc))).map
    (syncRowOfBlock db)

/-- The block rows selected by legacyGetWalletSyncDataLite (lines 885-909):
heights ≥ startHeight, ordered ascending, LIMIT blockCount. -/
def legacyGetWalletSyncDataLiteRows (db : DBState) (startHeight : Nat)
    (blockCount : Option Int) : List SyncBlockRow :=
  let bc := checkBlockCount blockCount
  ((sortByB (fun a b => decide (a.height ≤ b.height))
        (db.blocks.filter (fun b => startHeight ≤ b.height))).map
      (syncRowOfBlock db)).take bc

/-- The block rows selected by legacyGetWalletSyncData (lines 911-962): from the
resolved sync height up to the top block, optionally skipping blocks whose
transaction count is not > 1, ordered ascending, LIMIT blockCount.  With an
empty store getLastBlockHeader rejects first. -/
def legacyGetWalletSyncDataRows (db : DBState) (startHeight startTimestamp : Nat)
    (blockHashCheckpoints : List String) (blockCount : Option Int)
    (skipCoinbaseTransactions : Bool) : Except Err (List SyncBlockRow) :=
  let bc := checkBlockCount blockCount
  match lastRowQ db with
  | none => .error (.notFound "No blocks found in backend storage")
  | some top =>
    let syncHeight := findCurrentSyncHeight db blockHashCheckpoints startHeight startTimestamp
    .ok (((sortByB (fun a b => decide (a.height ≤ b.height))
            (db.blocks.filter (fun b =>
              syncHeight ≤ b.height ∧ b.height ≤ top.height ∧
                (!skipCoinbaseTransactions ||
                  match (syncRowOfBlock db b).txnCount with
                  | some c => decide (1 < c)
                  | none => false)))).map
          (syncRowOfBlock db)).take bc)

/-- The block rows selected by getWalletSyncData (lines 825-834): the sync
height is resolved from the known hashes alone and passed to
getWalletSyncDataByHeight together with the normalized block count (which
checkBlockCount then normalizes again, idempotently).  An empty hash list
throws before any query. -/
def getWalletSyncDataRows (db : DBState) (knownBlockHashes : List String)
    (blockCount : Option Int) : Except Err (List SyncBlockRow) :=
  if knownBlockHashes.isEmpty then
    .error (.jsTypeError "You must supply at least one known block hash")
  else
    let bc := checkBlockCount blockCount
    let syncHeight := findCurrentSyncHeight db knownBlockHashes 0 0
    .ok (getWalletSyncDataByHeightRows db syncHeight (some (bc : Int)))

/-! ## Block Assembler, current shape (claims C1, C10)

buildWalletDataBlock (databaseBackend.js lines 964-1121).  The assembly below
is the cache-miss path (the cache key is the block hash; a hit would replay a
previously assembled - and previously checked - block).  The transaction map is
a JS object keyed by txnHash: insertion order is preserved and a duplicate hash
overwrites in place (`upsertByHash`).  The per-hash input/output fetches route
every fetched row to the entry of its own txnHash, which is exactly the hash
that was queried, so each entry ends up with the rows of its hash. -/

/-- The meta block kept on each mapped transaction until the checks pass. -/
structure WalletTxnMeta where
  inputsTotal : Int
  outputsTotal : Int
  fee : Int
deriving DecidableEq

/-- An input as placed on a wallet-sync transaction. -/
structure WalletTxnInput where
  keyImage : String
  amount : Int
  type : String
deriving DecidableEq

/-- An output as placed on a wallet-sync transaction. -/
structure WalletTxnOutput where
  index : Nat
  globalIndex : Nat
  key : String
  amount : Int
  type : String
deriving DecidableEq

/-- A wallet-sync transaction before the meta information is deleted. -/
structure WalletTxn where
  hash : String
  publicKey : String
  unlockTime : String
  paymentId : String
  inputs : List WalletTxnInput
  outputs : List WalletTxnOutput
  meta : WalletTxnMeta
deriving DecidableEq

/-- A wallet-sync transaction as returned (meta deleted). -/
structure CleanWalletTxn where
  hash : String
  publicKey : String
  unlockTime : String
  paymentId : String
  inputs : List WalletTxnInput
  outputs : List WalletTxnOutput
deriving DecidableEq

/-- The assembled wallet-sync block of the current shape. -/
structure WalletDataBlock where
  blockHash : String
  height : Nat
  timestamp : Nat
  transactions : List CleanWalletTxn
deriving DecidableEq

/-- JS-object upsert keyed by hash: overwrite in place, else append. -/
def upsertByHash (m : List WalletTxn) (t : WalletTxn) : List WalletTxn :=
  if m.any (fun x => x.hash = t.hash) then
    m.map (fun x => if x.hash = t.hash then t else x)
  else m ++ [t]

/-- The transaction map of buildWalletDataBlock after the three fetch phases:
one entry per distinct transaction hash of the block, carrying its meta and the
input/output rows fetched for that hash. -/
def assembledTxns (db : DBState) (blockHash : String) : List WalletTxn :=
  let base :=
    (db.transactions.filter (fun t => t.blockHash = blockHash)).foldl
      (fun m txn =>
        upsertByHash m
          { hash := txn.txnHash, publicKey := txn.publicKey,
            unlockTime := txn.unlockTimeString, paymentId := txn.paymentId,
            inputs := [], outputs := [],
            meta := { inputsTotal := txn.totalInputsAmount,
                      outputsTotal := txn.totalOutputsAmount, fee := txn.fee } })
      []
  base.map (fun t =>
    { t with
      inputs := (apiInputRows db t.hash).map (fun i =>
        { keyImage := i.keyImage, amount := i.amount, type := i.type }),
      outputs := (apiOutputRows db t.hash).map (fun o =>
        { index := o.outputIndex, globalIndex := o.globalIndex, key := o.key,
          amount := o.amount, type := o.type }) })

/-- Sum of the input amounts of a mapped transaction. -/
def inSum (t : WalletTxn) : Int :=
  (t.inputs.map (fun i => i.amount)).sum

/-- Sum of the output amounts of a mapped transaction. -/
def outSum (t : WalletTxn) : Int :=
  (t.outputs.map (fun o => o.amount)).sum

/-- The per-transaction consistency checks of buildWalletDataBlock (lines
1068-1115), in source order, returning the first failing check's message. -/
def txnChecks (t : WalletTxn) : Option String :=
  if t.inputs.isEmpty ∧ t.outputs.isEmpty then
    some (getErrorMsg t.hash "No inputs and no outputs")
  else if t.meta.inputsTotal ≠ 0 ∧ inSum t ≠ t.meta.inputsTotal then
    some (getErrorMsg t.hash "Inputs total does not match meta information")
  else if outSum t ≠ t.meta.outputsTotal then
    some (getErrorMsg t.hash "Outputs total does not match meta information")
  else if t.meta.inputsTotal ≠ 0 ∧ inSum t - outSum t ≠ t.meta.fee then
    some (getErrorMsg t.hash "Transaction fee does not match")
  else none

/-- Delete the meta information from a checked transaction. -/
def cleanTxn (t : WalletTxn) : CleanWalletTxn :=
  { hash := t.hash, publicKey := t.publicKey, unlockTime := t.unlockTime,
    paymentId := t.paymentId, inputs := t.inputs, outputs := t.outputs }

/-- The check loop of buildWalletDataBlock: reject on the first failing
transaction, else strip all metas. -/
def checkTxns : List WalletTxn → Except Err (List CleanWalletTxn)
  | [] => .ok []
  | t :: rest =>
    match txnChecks t with
    | some m => .error (.dataConsistency m)
    | none =>
      match checkTxns rest with
      | .error e => .error e
      | .ok r => .ok (cleanTxn t :: r)

/-- buildWalletDataBlock: assemble, check the transaction count against the
block row (the error message interpolates block.hash, a field the sync row does
not carry, hence the literal 'undefined'), run the per-transaction checks, and
return the block.  Any rejection carries an Internal Data Consistency Error. -/
def buildWalletDataBlock (db : DBState) (block : SyncBlockRow) :
    Except Err WalletDataBlock :=
  let txns := assembledTxns db block.blockHash
  if block.txnCount ≠ some txns.length then
    .error (.dataConsistency
      (getErrorMsg "undefined" "Unexpected number of transactions in structure"))
  else
    match checkTxns txns with
    | .error e => .error e
    | .ok cleaned =>
      .ok { blockHash := block.blockHash, height := block.height,
            timestamp := block.timestamp, transactions := cleaned }

/-- getWalletSyncDataByHeight (lines 797-823): build every selected block.  The
final JS sort compares a `blockHeight` field the current shape does not have,
so it never reorders; the block list of a fulfilled call is the built rows. -/
def getWalletSyncDataByHeight (db : DBState) (scanHeight : Nat)
    (blockCount : Option Int) : Except Err (List WalletDataBlock) :=
  exceptMap (buildWalletDataBlock db) (getWalletSyncDataByHeightRows db scanHeight blockCount)

/-! ## Block Assembler, legacy shape (claim C1)

buildLegacyWalletDataBlock (databaseBackend.js lines 1123-1308).  Transactions
with totalInputsAmount === 0 populate (and re-populate, keeping the last) the
coinbaseTX object; the rest go to the map.  When the block has no coinbase
transaction at all, coinbaseTX.outputs is never assigned and the later
`.outputs.length` check throws a TypeError, not a consistency error. -/

/-- An input as placed on a legacy wallet-sync transaction. -/
structure LegacyInput where
  amount : Int
  k_image : String
deriving DecidableEq

/-- An output as placed on a legacy wallet-sync transaction or coinbase. -/
structure LegacyOutput where
  amount : Int
  key : String
  globalIndex : Nat
deriving DecidableEq

/-- A legacy wallet-sync transaction before the meta information is deleted. -/
structure LegacyTxn where
  hash : String
  inputs : List LegacyInput
  outputs : List LegacyOutput
  paymentID : String
  txPublicKey : String
  unlockTime : String
  meta : WalletTxnMeta
deriving DecidableEq

/-- A legacy wallet-sync transaction as returned (meta deleted). -/
structure CleanLegacyTxn where
  hash : String
  inputs : List LegacyInput
  outputs : List LegacyOutput
  paymentID : String
  txPublicKey : String
  unlockTime : String
deriving DecidableEq

/-- The legacy coinbaseTX object once a coinbase row exists. -/
structure LegacyCoinbase where
  hash : String
  txPublicKey : String
  unlockTime : String
  outputs : List LegacyOutput
deriving DecidableEq

/-- The assembled legacy wallet-sync block; coinbaseTX is deleted from the
response when skipCoinbaseTransactions is set. -/
structure LegacyWalletBlock where
  blockHash : String
  blockHeight : Nat
  blockTimestamp : Nat
  coinbaseTX : Option LegacyCoinbase
  transactions : List CleanLegacyTxn
deriving DecidableEq

/-- JS-object upsert for the legacy map. -/
def upsertLegacy (m : List LegacyTxn) (t : LegacyTxn) : List LegacyTxn :=
  if m.any (fun x => x.hash = t.hash) then
    m.map (fun x => if x.hash = t.hash then t else x)
  else m ++ [t]

/-- The coinbase row of a block: the last transaction row with
totalInputsAmount === 0 (each one overwrites the coinbaseTX fields). -/
def legacyCoinbaseRow (db : DBState) (blockHash : String) : Option TxnRow :=
  (db.transactions.filter (fun t => t.blockHash = blockHash)).foldl
    (fun acc txn => if txn.totalInputsAmount = 0 then some txn else acc) none

/-- The outputs placed on the legacy coinbaseTX: the rows fetched for the
coinbase hash ([] when there is no coinbase row, since the txnHash = undefined
query matches nothing). -/
def legacyCoinbaseOutputs (db : DBState) (blockHash : String) : List LegacyOutput :=
  match legacyCoinbaseRow db blockHash with
  | none => []
  | some cb =>
    (apiOutputRows db cb.txnHash).map (fun o =>
      { amount := o.amount, key := o.key, globalIndex := o.globalIndex })

/-- The legacy transaction map after the fetch phases: the non-coinbase rows of
the block, each with the input/output rows of its hash. -/
def legacyAssembledTxns (db : DBState) (blockHash : String) : List LegacyTxn :=
  let base :=
    (db.transactions.filter (fun t => t.blockHash = blockHash)).foldl
      (fun m txn =>
        if txn.totalInputsAmount = 0 then m
        else
          upsertLegacy m
            { hash := txn.txnHash, inputs := [], outputs := [],
              paymentID := txn.paymentId, txPublicKey := txn.publicKey,
              unlockTime := txn.unlockTimeString,
              meta := { inputsTotal := txn.totalInputsAmount,
                        outputsTotal := txn.totalOutputsAmount, fee := txn.fee } })
      []
  base.map (fun t =>
    { t with
      inputs := (apiInputRows db t.hash).map (fun i =>
        { amount := i.amount, k_image := i.keyImage }),
      outputs := (apiOutputRows db t.hash).map (fun o =>
        { amount := o.amount, key := o.key, globalIndex := o.globalIndex }) })

/-- Sum of the input amounts of a legacy mapped transaction. -/
def legacyInSum (t : LegacyTxn) : Int :=
  (t.inputs.map (fun i => i.amount)).sum

/-- Sum of the output amounts of a legacy mapped transaction. -/
def legacyOutSum (t : LegacyTxn) : Int :=
  (t.outputs.map (fun o => o.amount)).sum

/-- The per-transaction checks of buildLegacyWalletDataBlock (lines 1253-1294):
as the current shape, but the inputs and fee checks are unconditional (the map
holds no coinbase transaction). -/
def legacyTxnChecks (t : LegacyTxn) : Option String :=
  if t.inputs.isEmpty ∧ t.outputs.isEmpty then
    some (getErrorMsg t.hash "No inputs and no outputs")
  else if legacyInSum t ≠ t.meta.inputsTotal then
    some (getErrorMsg t.hash "Inputs total does not match meta information")
  else if legacyOutSum t ≠ t.meta.outputsTotal then
    some (getErrorMsg t.hash "Outputs total does not match meta information")
  else if legacyInSum t - legacyOutSum t ≠ t.meta.fee then
    some (getErrorMsg t.hash "Transaction fee does not match")
  else none

/-- Delete the meta information from a checked legacy transaction. -/
def cleanLegacyTxn (t : LegacyTxn) : CleanLegacyTxn :=
  { hash := t.hash, inputs := t.inputs, outputs := t.outputs,
    paymentID := t.paymentID, txPublicKey := t.txPublicKey, unlockTime := t.unlockTime }

/-- The legacy check loop. -/
def checkLegacyTxns : List LegacyTxn → Except Err (List CleanLegacyTxn)
  | [] => .ok []
  | t :: rest =>
    match legacyTxnChecks t with
    | some m => .error (.dataConsistency m)
    | none =>
      match checkLegacyTxns rest with
      | .error e => .error e
      | .ok r => .ok (cleanLegacyTxn t :: r)

/-- The per-block row handed to buildLegacyWalletDataBlock (the legacy block
queries select `hash`, not `hash AS blockHash`). -/
structure LegacyBlockRow where
  hash : String
  height : Nat
  timestamp : Nat
  txnCount : Option Nat
deriving DecidableEq

/-- buildLegacyWalletDataBlock: split off the coinbase, fetch its outputs and
the map rows, then check - coinbase outputs non-empty first (a TypeError when
no coinbase row ever assigned the outputs field), then the transaction count
including the coinbase, then the per-transaction checks.  The coinbaseTX is
deleted from the response when skipCoinbaseTransactions is set. -/
def buildLegacyWalletDataBlock (db : DBState) (block : LegacyBlockRow)
    (skipCoinbaseTransactions : Bool) : Except Err LegacyWalletBlock :=
  let txns := legacyAssembledTxns db block.hash
  match legacyCoinbaseRow db block.hash with
  | none => .error (.jsTypeError "Cannot read outputs of undefined")
  | some cbRow =>
    let cbOuts := legacyCoinbaseOutputs db block.hash
    if cbOuts.isEmpty then
      .error (.dataConsistency (getErrorMsg block.hash "Coinbase Transaction Has No Outputs"))
    else if block.txnCount ≠ some (txns.length + 1) then
      .error (.dataConsistency
        (getErrorMsg block.hash "Unexpected number of transactions in structure"))
    else
      match checkLegacyTxns txns with
      | .error e => .error e
      | .ok cleaned =>
        .ok { blockHash := block.hash, blockHeight := block.height,
              blockTimestamp := block.timestamp,
              coinbaseTX :=
                if skipCoinbaseTransactions then none
                else some { hash := cbRow.txnHash, txPublicKey := cbRow.publicKey,
                            unlockTime := cbRow.unlockTimeString, outputs := cbOuts },
              transactions := cleaned }

/-- Whether an Except result is a rejection with an Internal Data Consistency
Error. -/
def isDataConsistencyError {α : Type} : Except Err α → Bool
  | .error (.dataConsistency _) => true
  | _ => false

/-! ## Random Output Sampler (claims C5, C6)

getRandomOutputsForAmounts (databaseBackend.js lines 1310-1437).  The caller
mixin is incremented once (`mixin += 1`) before anything else; the request is
deduplicated while accumulating mixin per occurrence of an amount; the per-row
guard compares the maximum global index against the incremented mixin; then the
retry-until-unique loop draws from the CSPRNG.  The CSPRNG is modelled as a
finite stream of naturals consumed left to right, each reduced into
[0, maxIdx] - an exhausted stream models a run of randomness on which the while
loop has not yet finished, so the overall result type is `Option` with `none`
for a non-terminated run. -/

/-- Add `m` to the count of `a`, inserting at the end on first sight (the
mixinCounts object together with the dedupedAmounts order). -/
def bumpCount : List (Int × Nat) → Int → Nat → List (Int × Nat)
  | [], a, m => [(a, m)]
  | (b, c) :: rest, a, m =>
    if b = a then (b, c + m) :: rest else (b, c) :: bumpCount rest a m

/-- The deduplicated amounts with their accumulated mixin requirement. -/
def mixinCountsOf (amounts : List Int) (mixin : Nat) : List (Int × Nat) :=
  amounts.foldl (fun acc a => bumpCount acc a mixin) []

/-- The deduplicated amounts in first-occurrence order. -/
def dedupedOf (amounts : List Int) : List Int :=
  amounts.foldl (fun acc a => if a ∈ acc then acc else acc ++ [a]) []

/-- The accumulated mixin requirement of one amount. -/
def lookupCount (counts : List (Int × Nat)) (a : Int) : Nat :=
  match counts.find? (fun p => p.1 = a) with
  | some p => p.2
  | none => 0

/-- The retry-until-unique drawing loop: consume the stream until `need`
distinct values in [0, maxIdx] are collected; `none` when the stream runs out
first.  Returns the draws in collection order and the remaining stream. -/
def drawDistinct : List Nat → Nat → Nat → List Nat → Option (List Nat × List Nat)
  | s, maxIdx, need, acc =>
    if acc.length = need then some (acc, s)
    else
      match s with
      | [] => none
      | r :: rest =>
        drawDistinct rest maxIdx need
          (if r % (maxIdx + 1) ∈ acc then acc else acc ++ [r % (maxIdx + 1)])

/-- The per-amount loop of the sampler: guard each maximum against the
incremented mixin, then draw the accumulated requirement, producing the flat
(amount, globalIndex) pairs of the random-criteria query. -/
def loopDraw (mixin : Nat) (counts : List (Int × Nat)) :
    List ToimRow → List Nat → Option (Except Err (List (Int × Nat)))
  | [], _ => some (.ok [])
  | row :: rest, s =>
    if row.globalIndex < mixin then some (.error .insufficientMixins)
    else
      match drawDistinct s row.globalIndex (lookupCount counts row.amount) [] with
      | none => none
      | some (rnds, s1) =>
        match loopDraw mixin counts rest s1 with
        | none => none
        | some (.error e) => some (.error e)
        | some (.ok pairs) =>
          some (.ok ((rnds.map (fun r => (row.amount, r))) ++ pairs))

/-- One output of a response group. -/
structure OutGroupOut where
  global_amount_index : Nat
  out_key : String
deriving DecidableEq

/-- One per-request group of the response. -/
structure OutGroup where
  amount : Int
  outs : List OutGroupOut
deriving DecidableEq

/-- Sort the outs of a group ascending by global index (the comparator used
when a full group is pushed; the trailing group is pushed unsorted). -/
def sortGroupOuts (g : OutGroup) : OutGroup :=
  { g with
    outs := sortByB (fun a b => decide (a.global_amount_index ≤ b.global_amount_index)) g.outs }

/-- The response-shaping forEach (lines 1400-1435): a group closes when the
amount changes or the group holds `mixin` outs; the initial placeholder group
has amount -1 and is never pushed; the final group is pushed unsorted. -/
def groupResponse (mixin : Nat) (rows : List (Int × Nat × String)) : List OutGroup :=
  let step := fun (st : OutGroup × List OutGroup) (row : Int × Nat × String) =>
    let cur := st.1
    let acc := st.2
    if row.1 ≠ cur.amount ∨ cur.outs.length = mixin then
      let acc1 := if cur.amount ≠ -1 then acc ++ [sortGroupOuts cur] else acc
      ({ amount := row.1, outs := [{ global_amount_index := row.2.1, out_key := row.2.2 }] },
        acc1)
    else
      ({ cur with
          outs := cur.outs ++ [{ global_amount_index := row.2.1, out_key := row.2.2 }] },
        acc)
  let final := rows.foldl step ({ amount := -1, outs := [] }, [])
  final.2 ++ [final.1]

/-- getRandomOutputsForAmounts over a randomness stream: dedupe and accumulate,
read the per-amount maxima (rejecting unless every amount has one), guard and
draw per amount, fetch the drawn (amount, globalIndex) output rows ordered by
amount, and shape the response.  An empty request builds malformed SQL. -/
def getRandomOutputsForAmounts (db : DBState) (amounts : List Int) (mixinReq : Nat)
    (stream : List Nat) : Option (Except Err (List OutGroup)) :=
  let mixin := mixinReq + 1
  let counts := mixinCountsOf amounts mixin
  let deduped := counts.map (fun p => p.1)
  if deduped.isEmpty then some (.error .sqlSyntax)
  else
    let results := db.toim.filter (fun t => t.amount ∈ deduped)
    if results.length ≠ deduped.length then some (.error .noPriorOutputs)
    else
      match loopDraw mixin counts results stream with
      | none => none
      | some (.error e) => some (.error e)
      | some (.ok pairs) =>
        let rows :=
          (sortByB (fun a b => decide (a.amount ≤ b.amount))
              (db.outputs.filter (fun o => (o.amount, o.globalIndex) ∈ pairs))).map
            (fun o => (o.amount, o.globalIndex, o.key))
        some (.ok (groupResponse mixin rows))

/-- Total number of global indices delivered for one amount across all groups
of a response. -/
def totalIndicesFor (resp : List OutGroup) (a : Int) : Nat :=
  ((resp.filter (fun g => g.amount = a)).map (fun g => g.outs.length)).sum

/-- All global indices delivered for one amount, in response order. -/
def allIndicesFor (resp : List OutGroup) (a : Int) : List Nat :=
  ((resp.filter (fun g => g.amount = a)).map
      (fun g => g.outs.map (fun o => o.global_amount_index))).flatten

/-! ## RPC Bridge (claim C4)

requestReply (rabbit.js lines 90-124).  Per call the bridge registers one more
consumer on the process reply queue (channel.consume with a closure matching
the fresh correlationId), publishes the request, and arms a timer for
timeout + 500 ms that rejects with the timeout error.  Nothing ever cancels the
consumer: neither a matching reply (which only acks, clears the timer and
resolves) nor the timeout (which only rejects). -/

/-- A message published to a work queue with its reply properties. -/
structure OutboundMsg where
  queue : String
  payload : String
  correlationId : String
  replyTo : String
  expiration : Nat
deriving DecidableEq

/-- The bridge state: the registered reply-queue consumers as
(queue, correlationId they match), the published messages, and the armed
timers as (correlationId, delay in ms). -/
structure RabbitState where
  consumers : List (String × String)
  sent : List OutboundMsg
  timers : List (String × Nat)
deriving DecidableEq

/-- requestReply: `timeout = timeout || 5000`, register a consumer on the reply
queue for the fresh requestId, publish with correlationId/replyTo/expiration,
arm the rejection timer at timeout + 500. -/
def requestReply (st : RabbitState) (replyQueue queue payload : String)
    (timeout : Nat) (requestId : String) : RabbitState :=
  let t := if timeout = 0 then 5000 else timeout
  { consumers := st.consumers ++ [(replyQueue, requestId)],
    sent := st.sent ++ [{ queue := queue, payload := payload, correlationId := requestId,
                          replyTo := replyQueue, expiration := t }],
    timers := st.timers ++ [(requestId, t + 500)] }

/-- The timer of a call firing with no reply received: the promise rejects with
the timeout error; the fired timer is gone but the consumer registration stays
(no channel.cancel exists anywhere in the source). -/
def fireTimeout (st : RabbitState) (requestId : String) : Except Err Unit × RabbitState :=
  (.error .timeout,
    { st with timers := st.timers.filter (fun p => p.1 ≠ requestId) })

/-- A matching reply arriving: the message is acked, the timer cleared and the
promise resolved - the consumer registration again stays. -/
def handleReply (st : RabbitState) (requestId : String) (response : String) :
    Except Err String × RabbitState :=
  (.ok response,
    { st with timers := st.timers.filter (fun p => p.1 ≠ requestId) })

/-! ## Concrete states used to exercise the operations -/

/-- A store with every table empty. -/
def emptyDB : DBState :=
  { blocks := [], transactions := [], inputs := [], outputs := [], pool := [], toim := [] }

/-- The genesis-only store of the depth scenario. -/
def exDbA : DBState :=
  { emptyDB with blocks := [{ hash := "aa", height := 0, timestamp := 0 }] }

/-- The same store after one more block has been collected. -/
def exDbB : DBState :=
  { emptyDB with
    blocks := [{ hash := "aa", height := 0, timestamp := 0 },
               { hash := "bb", height := 1, timestamp := 30 }] }

/-- The header of block "aa" as first assembled (top height 0, so depth 0). -/
def exHdrAA : BlockHeader :=
  { hash := "aa", height := 0, timestamp := 0, depth := 0, transactionCount := 0 }

/-- The cache state after getBlockHeaderByHash at instant 0 on `exDbA`. -/
def exCacheC2 : HeaderCache :=
  [("getLastBlockHeader", (5, exHdrAA)), ("getBlockHeaderByHashaa", (10, exHdrAA))]

/-- The top header of `exDbB` as resolved on a top-cache miss. -/
def exTopB : BlockHeader :=
  { hash := "bb", height := 1, timestamp := 30, depth := 0, transactionCount := 0 }

/-- A store holding the block at height 100 with hash "h100". -/
def exDbC3 : DBState :=
  { emptyDB with blocks := [{ hash := "h100", height := 100, timestamp := 50 }] }

/-- A store in which hash "a" sits in the pool table and in the transactions
table at the same time. -/
def exDbC7 : DBState :=
  { emptyDB with
    pool := [{ txnHash := "a" }],
    transactions := [{ txnHash := "a", blockHash := "b", publicKey := "pk",
                       paymentId := "", unlockTimeString := "0", fee := 1,
                       totalInputsAmount := 3, totalOutputsAmount := 2 }] }

/-- A store whose pool and transactions tables are disjoint. -/
def exDbC7w : DBState :=
  { emptyDB with
    pool := [{ txnHash := "a" }],
    transactions := [{ txnHash := "b", blockHash := "blk", publicKey := "pk",
                       paymentId := "", unlockTimeString := "0", fee := 1,
                       totalInputsAmount := 3, totalOutputsAmount := 2 }] }

/-- The classification of ["a", "b", "c"] against `exDbC7w`. -/
def exStC7w : TxStatus :=
  { transactionsInPool := ["a"], transactionsInBlock := ["b"], transactionsUnknown := ["c"] }

/-- A store with a single transaction input row, for the trim scenario. -/
def exDbC8 : DBState :=
  { emptyDB with
    inputs := [{ txnHash := "t", type := 2, amount := 5, keyImage := "ki" }],
    outputs := [{ txnHash := "t", type := 2, amount := 5, globalIndex := 7,
                  outputIndex := 0, key := "ok1" }] }

/-- A store whose only block "B" holds just a coinbase transaction whose stored
output rows sum to 5 although the recorded totalOutputsAmount is 7. -/
def exDbC1bad : DBState :=
  { emptyDB with
    transactions := [{ txnHash := "cb", blockHash := "B", publicKey := "pkc",
                       paymentId := "", unlockTimeString := "0", fee := 0,
                       totalInputsAmount := 0, totalOutputsAmount := 7 }],
    outputs := [{ txnHash := "cb", type := 0, amount := 5, globalIndex := 0,
                  outputIndex := 0, key := "k" }] }

/-- The legacy row of block "B" in `exDbC1bad`. -/
def exBlkC1bad : LegacyBlockRow :=
  { hash := "B", height := 3, timestamp := 9, txnCount := some 1 }

/-- A fully consistent store: block "B" with a coinbase (0 in, 29 out, fee 0)
and one transfer (10 in, 8 out, fee 2). -/
def exDbC1w : DBState :=
  { emptyDB with
    transactions := [{ txnHash := "cb", blockHash := "B", publicKey := "pkc",
                       paymentId := "", unlockTimeString := "0", fee := 0,
                       totalInputsAmount := 0, totalOutputsAmount := 29 },
                     { txnHash := "t1", blockHash := "B", publicKey := "pk1",
                       paymentId := "p", unlockTimeString := "0", fee := 2,
                       totalInputsAmount := 10, totalOutputsAmount := 8 }],
    inputs := [{ txnHash := "t1", type := 2, amount := 10, keyImage := "ki1" }],
    outputs := [{ txnHash := "cb", type := 0, amount := 29, globalIndex := 0,
                  outputIndex := 0, key := "kcb" },
                { txnHash := "t1", type := 0, amount := 8, globalIndex := 1,
                  outputIndex := 0, key := "kt1" }] }

/-- The sync row of block "B" in `exDbC1w`. -/
def exBlkC1w : SyncBlockRow :=
  { blockHash := "B", height := 5, timestamp := 9, txnCount := some 2 }

/-- The legacy row of block "B" in `exDbC1w`. -/
def exBlkC1wL : LegacyBlockRow :=
  { hash := "B", height := 5, timestamp := 9, txnCount := some 2 }

/-- The transfer of `exDbC1w` as assembled by the transaction map. -/
def exWT1 : WalletTxn :=
  { hash := "t1", publicKey := "pk1", unlockTime := "0", paymentId := "p",
    inputs := [{ keyImage := "ki1", amount := 10, type := "02" }],
    outputs := [{ index := 0, globalIndex := 1, key := "kt1", amount := 8, type := "00" }],
    meta := { inputsTotal := 10, outputsTotal := 8, fee := 2 } }

/-- A store whose block "B" holds one transfer whose stored input rows sum to 9
although the recorded totalInputsAmount is 10. -/
def exDbC1v : DBState :=
  { emptyDB with
    transactions := [{ txnHash := "tx", blockHash := "B", publicKey := "p",
                       paymentId := "", unlockTimeString := "0", fee := 1,
                       totalInputsAmount := 10, totalOutputsAmount := 8 }],
    inputs := [{ txnHash := "tx", type := 2, amount := 9, keyImage := "k" }],
    outputs := [{ txnHash := "tx", type := 0, amount := 8, globalIndex := 0,
                  outputIndex := 0, key := "ko" }] }

/-- The sync row of block "B" in `exDbC1v`. -/
def exBlkC1v : SyncBlockRow :=
  { blockHash := "B", height := 0, timestamp := 0, txnCount := some 1 }

/-- The violating transfer of `exDbC1v` as assembled. -/
def exWTv : WalletTxn :=
  { hash := "tx", publicKey := "p", unlockTime := "0", paymentId := "",
    inputs := [{ keyImage := "k", amount := 9, type := "02" }],
    outputs := [{ index := 0, globalIndex := 0, key := "ko", amount := 8, type := "00" }],
    meta := { inputsTotal := 10, outputsTotal := 8, fee := 1 } }

/-- `exDbC1v` with a well-formed coinbase added, for the legacy shape. -/
def exDbC1vL : DBState :=
  { exDbC1v with
    transactions := { txnHash := "cbv", blockHash := "B", publicKey := "pc",
                      paymentId := "", unlockTimeString := "0", fee := 0,
                      totalInputsAmount := 0, totalOutputsAmount := 3 } :: exDbC1v.transactions,
    outputs := { txnHash := "cbv", type := 0, amount := 3, globalIndex := 0,
                 outputIndex := 0, key := "kc" } :: exDbC1v.outputs }

/-- The legacy row of block "B" in `exDbC1vL`. -/
def exBlkC1vL : LegacyBlockRow :=
  { hash := "B", height := 0, timestamp := 0, txnCount := some 2 }

/-- The violating transfer of `exDbC1vL` as assembled for the legacy shape. -/
def exLTv : LegacyTxn :=
  { hash := "tx",
    inputs := [{ amount := 9, k_image := "k" }],
    outputs := [{ amount := 8, key := "ko", globalIndex := 0 }],
    paymentID := "", txPublicKey := "p", unlockTime := "0",
    meta := { inputsTotal := 10, outputsTotal := 8, fee := 1 } }

/-- A store with ten outputs (global indices 0-9) for amount 100 and maximum
global index 9. -/
def exDbC5 : DBState :=
  { emptyDB with
    toim := [{ amount := 100, globalIndex := 9 }],
    outputs := [{ txnHash := "x", type := 0, amount := 100, globalIndex := 0, outputIndex := 0, key := "k0" },
                { txnHash := "x", type := 0, amount := 100, globalIndex := 1, outputIndex := 1, key := "k1" },
                { txnHash := "x", type := 0, amount := 100, globalIndex := 2, outputIndex := 2, key := "k2" },
                { txnHash := "x", type := 0, amount := 100, globalIndex := 3, outputIndex := 3, key := "k3" },
                { txnHash := "x", type := 0, amount := 100, globalIndex := 4, outputIndex := 4, key := "k4" },
                { txnHash := "x", type := 0, amount := 100, globalIndex := 5, outputIndex := 5, key := "k5" },
                { txnHash := "x", type := 0, amount := 100, globalIndex := 6, outputIndex := 6, key := "k6" },
                { txnHash := "x", type := 0, amount := 100, globalIndex := 7, outputIndex := 7, key := "k7" },
                { txnHash := "x", type := 0, amount := 100, globalIndex := 8, outputIndex := 8, key := "k8" },
                { txnHash := "x", type := 0, amount := 100, globalIndex := 9, outputIndex := 9, key := "k9" }] }

/-- The response of the sampler on `exDbC5` for ([100, 100], 2) with randomness
0,1,2,3,4,5: two groups of three outs each, six indices in total. -/
def exRespC5 : List OutGroup :=
  [{ amount := 100,
     outs := [{ global_amount_index := 0, out_key := "k0" },
              { global_amount_index := 1, out_key := "k1" },
              { global_amount_index := 2, out_key := "k2" }] },
   { amount := 100,
     outs := [{ global_amount_index := 3, out_key := "k3" },
              { global_amount_index := 4, out_key := "k4" },
              { global_amount_index := 5, out_key := "k5" }] }]

/-- A store with exactly three outputs (global indices 0-2) for amount 100, so
the maximum known global index is 2. -/
def exDbC5s : DBState :=
  { emptyDB with
    toim := [{ amount := 100, globalIndex := 2 }],
    outputs := [{ txnHash := "x", type := 0, amount := 100, globalIndex := 0, outputIndex := 0, key := "k0" },
                { txnHash := "x", type := 0, amount := 100, globalIndex := 1, outputIndex := 1, key := "k1" },
                { txnHash := "x", type := 0, amount := 100, globalIndex := 2, outputIndex := 2, key := "k2" }] }

/-- A store whose maximum known global index for amount 100 is exactly 3. -/
def exDbC6 : DBState :=
  { emptyDB with
    toim := [{ amount := 100, globalIndex := 3 }],
    outputs := [{ txnHash := "x", type := 0, amount := 100, globalIndex := 0, outputIndex := 0, key := "k0" },
                { txnHash := "x", type := 0, amount := 100, globalIndex := 1, outputIndex := 1, key := "k1" },
                { txnHash := "x", type := 0, amount := 100, globalIndex := 2, outputIndex := 2, key := "k2" },
                { txnHash := "x", type := 0, amount := 100, globalIndex := 3, outputIndex := 3, key := "k3" }] }

/-- A store with ample outputs for amount 100 (maximum global index 10). -/
def exDbC6w : DBState :=
  { emptyDB with
    toim := [{ amount := 100, globalIndex := 10 }],
    outputs := [{ txnHash := "x", type := 0, amount := 100, globalIndex := 0, outputIndex := 0, key := "a0" },
                { txnHash := "x", type := 0, amount := 100, globalIndex := 1, outputIndex := 1, key := "a1" },
                { txnHash := "x", type := 0, amount := 100, globalIndex := 2, outputIndex := 2, key := "a2" }] }

/-- The response of the sampler on `exDbC6w` for ([100], 2) with randomness
0,1,2. -/
def exRespC6w : List OutGroup :=
  [{ amount := 100,
     outs := [{ global_amount_index := 0, out_key := "a0" },
              { global_amount_index := 1, out_key := "a1" },
              { global_amount_index := 2, out_key := "a2" }] }]

/-- A two-block store with distinct heights, for the wallet-sync bounds. -/
def exDbC10 : DBState :=
  { emptyDB with blocks := [{ hash := "g", height := 0, timestamp := 0 },
                            { hash := "h", height := 1, timestamp := 10 }] }

/-! ## Helper lemmas -/

theorem alistFind_alistSet {α : Type} (l : List (String × α)) (key : String) (v : α) :
    alistFind (alistSet l key v) key = some v := by
  induction l with
  | nil => simp [alistSet, alistFind]
  | cons p rest ih =>
    obtain ⟨k, w⟩ := p
    by_cases hk : k = key
    · subst hk
      simp [alistSet, alistFind]
    · simp [alistSet, alistFind, hk, ih]

/-! ## Claim C9: empty results are cache misses -/

/-- C9: a checkCache lookup that finds no entry, an empty array, or an empty
mapping is a miss, never a hit; in particular storing an empty array with
set(k, [], ttl) and reading k back yields a miss rather than []. -/
theorem c9_empty_results_are_misses :
    (∀ now cache key, alistFind cache key = none → checkCacheJ now cache key = none)
    ∧ (∀ now cache key expiresAt,
        alistFind cache key = some (expiresAt, .jarr []) → checkCacheJ now cache key = none)
    ∧ (∀ now cache key expiresAt,
        alistFind cache key = some (expiresAt, .jobj []) → checkCacheJ now cache key = none)
    ∧ (∀ now cache key ttl, checkCacheJ now (redisSetJ now cache key (.jarr []) ttl) key = none) := by
  refine ⟨?_, ?_, ?_, ?_⟩
  · intro now cache key h
    simp [checkCacheJ, h]
  · intro now cache key expiresAt h
    simp only [checkCacheJ, h]
    by_cases hexp : expiresAt ≤ now <;> simp [hexp, jfalsy, jIsEmptyArray]
  · intro now cache key expiresAt h
    simp only [checkCacheJ, h]
    by_cases hexp : expiresAt ≤ now <;> simp [hexp, jfalsy, jIsEmptyArray, jKeysLength]
  · intro now cache key ttl
    have hset : redisSetJ now cache key (.jarr []) ttl = alistSet cache key (now + ttl, .jarr []) := by
      simp [redisSetJ, jfalsy]
    rw [hset]
    simp only [checkCacheJ, alistFind_alistSet]
    by_cases hexp : now + ttl ≤ now <;> simp [hexp, jfalsy, jIsEmptyArray]

/-- C9 witness: the three conditional miss rules at concrete states. -/
theorem c9_empty_results_are_misses_witness :
    (alistFind ([] : List (String × (Nat × JVal))) "k" = none ∧ checkCacheJ 0 [] "k" = none)
    ∧ (alistFind [("k", (9, JVal.jarr []))] "k" = some (9, JVal.jarr [])
        ∧ checkCacheJ 0 [("k", (9, JVal.jarr []))] "k" = none)
    ∧ (alistFind [("k", (9, JVal.jobj []))] "k" = some (9, JVal.jobj [])
        ∧ checkCacheJ 0 [("k", (9, JVal.jobj []))] "k" = none) :=
  ⟨⟨rfl, c9_empty_results_are_misses.1 0 [] "k" rfl⟩,
   ⟨rfl, c9_empty_results_are_misses.2.1 0 [("k", (9, JVal.jarr []))] "k" 9 rfl⟩,
   ⟨rfl, c9_empty_results_are_misses.2.2.1 0 [("k", (9, JVal.jobj []))] "k" 9 rfl⟩⟩

/-! ## Claim C4: requestReply timeout and per-call state -/

/-- C4 counterexample: a call with timeout 1000 and no reply does reject with
the timeout error, but its consumer registration on the reply queue is still
present afterwards (the claim says the registration is removed, leaving no
leak), and the rejection timer was armed at 1500 ms, not the caller-specified
1000 ms window. -/
theorem c4_counterexample :
    (fireTimeout (requestReply ⟨[], [], []⟩ "replyq" "workq" "payload" 1000 "rid") "rid").1 =
      .error .timeout
    ∧ (fireTimeout (requestReply ⟨[], [], []⟩ "replyq" "workq" "payload" 1000 "rid") "rid").2.consumers =
      [("replyq", "rid")]
    ∧ (requestReply ⟨[], [], []⟩ "replyq" "workq" "payload" 1000 "rid").timers = [("rid", 1500)] :=
  ⟨rfl, rfl, rfl⟩

/-- C4 amended: a requestReply call with no matching reply rejects with the
Timeout error when its timer fires, the timer being armed at
(timeout || 5000) + 500 ms; afterwards the timer is gone but the consumer
registered on the reply queue for the call's correlationId is never cancelled -
it survives both the timeout and the matching-reply path (a leak). -/
theorem c4_timeout_leaves_consumer_registered :
    ∀ (st : RabbitState) (replyQueue queue payload : String) (timeout : Nat) (requestId : String),
      (fireTimeout (requestReply st replyQueue queue payload timeout requestId) requestId).1 =
        .error .timeout
      ∧ (requestId, (if timeout = 0 then 5000 else timeout) + 500) ∈
          (requestReply st replyQueue queue payload timeout requestId).timers
      ∧ (replyQueue, requestId) ∈
          (fireTimeout (requestReply st replyQueue queue payload timeout requestId) requestId).2.consumers
      ∧ (replyQueue, requestId) ∈
          (handleReply (requestReply st replyQueue queue payload timeout requestId) requestId "r").2.consumers := by
  intro st rq q p t rid
  refine ⟨rfl, ?_, ?_, ?_⟩ <;> simp [requestReply, fireTimeout, handleReply]

/-! ## Claim C3: the sync height resolver -/

/-- C3: findCurrentSyncHeight returns the maximum of (a) one plus the greatest
stored height among blocks whose hash is known (0 when no hash matches or none
was supplied), (b) the greatest height with timestamp at most startTimestamp
(taken only when startTimestamp > 0, else 0), and (c) the caller-supplied
startHeight; and the two concrete resolutions of the spec hold. -/
theorem c3_sync_height_is_max_of_hints :
    (∀ (db : DBState) (hashes : List String) (startHeight startTimestamp : Nat),
      findCurrentSyncHeight db hashes startHeight startTimestamp =
        Nat.max
          (Nat.max (((matchingHeights db hashes).max?.map (fun h => h + 1)).getD 0)
            ((if startTimestamp > 0 then (tsHeights db startTimestamp).max? else none).getD 0))
          startHeight)
    ∧ findCurrentSyncHeight exDbC3 [] 0 0 = 0
    ∧ findCurrentSyncHeight exDbC3 ["h100"] 0 0 = 101 := by
  refine ⟨?_, rfl, rfl⟩
  intro db hashes sh st
  unfold findCurrentSyncHeight
  by_cases he : hashes.isEmpty
  · have h0 : hashes = [] := by simpa using he
    subst h0
    have hm : matchingHeights db [] = [] := by simp [matchingHeights]
    rcases h2 : (if st > 0 then (tsHeights db st).max? else none) with _ | b <;>
      simp [hm, h2, Nat.max_def] <;> (intros; (try split_ifs) <;> omega)
  · rcases h1 : (matchingHeights db hashes).max? with _ | a <;>
      rcases h2 : (if st > 0 then (tsHeights db st).max? else none) with _ | b <;>
        simp [he, h1, h2, Nat.max_def] <;> (intros; (try split_ifs) <;> omega)

/-! ## Claim C7: transaction status classification -/

/-- C7 counterexample: with hash "a" present in both the transaction_pool table
and the transactions table, getTransactionsStatus(["a"]) places "a" in both
transactionsInPool and transactionsInBlock, so the three result sets are not
pairwise disjoint as the claim states. -/
theorem c7_counterexample :
    getTransactionsStatus exDbC7 ["a"] =
      .ok { transactionsInPool := ["a"], transactionsInBlock := ["a"], transactionsUnknown := [] }
    ∧ txStatusOverlap
        { transactionsInPool := ["a"], transactionsInBlock := ["a"],
          transactionsUnknown := [] } = true :=
  ⟨rfl, rfl⟩

/-- C7 amended: for every fulfilled classification, transactionsUnknown is
disjoint from the other two sets and the union of the three equals the input
hash set; transactionsInPool and transactionsInBlock are disjoint provided no
hash is stored in both the pool and the transactions tables (a hash in both
tables appears in both lists). -/
theorem c7_classification_partition :
    ∀ (db : DBState) (hashes : List String) (st : TxStatus),
      getTransactionsStatus db hashes = .ok st →
      (∀ h ∈ st.transactionsUnknown, h ∉ st.transactionsInPool ∧ h ∉ st.transactionsInBlock)
      ∧ (∀ h, h ∈ hashes ↔
          h ∈ st.transactionsInPool ∨ h ∈ st.transactionsInBlock ∨ h ∈ st.transactionsUnknown)
      ∧ ((∀ p ∈ db.pool, ∀ t ∈ db.transactions, p.txnHash ≠ t.txnHash) →
          ∀ h ∈ st.transactionsInPool, h ∉ st.transactionsInBlock) := by
  intro db hashes st hok
  unfold getTransactionsStatus at hok
  by_cases he : hashes.isEmpty
  · rw [if_pos he] at hok
    cases hok
  · rw [if_neg he] at hok
    injection hok with hok
    subst hok
    refine ⟨?_, ?_, ?_⟩
    · intro h hmem
      simp only [List.mem_filter, decide_eq_true_eq] at hmem
      exact hmem.2
    · intro h
      constructor
      · intro hh
        by_cases hp : h ∈ (db.pool.filter (fun t => t.txnHash ∈ hashes)).map (fun t => t.txnHash)
        · exact Or.inl hp
        · by_cases hb : h ∈ (db.transactions.filter (fun t => t.txnHash ∈ hashes)).map
              (fun t => t.txnHash)
          · exact Or.inr (Or.inl hb)
          · refine Or.inr (Or.inr ?_)
            simp only [List.mem_filter, decide_eq_true_eq]
            exact ⟨hh, hp, hb⟩
      · rintro (hp | hb | hu)
        · obtain ⟨p, hpmem, rfl⟩ := List.mem_map.mp hp
          have := (List.mem_filter.mp hpmem).2
          simpa using this
        · obtain ⟨t, htmem, rfl⟩ := List.mem_map.mp hb
          have := (List.mem_filter.mp htmem).2
          simpa using this
        · exact (List.mem_filter.mp hu).1
    · intro hdisj h hp hb
      obtain ⟨p, hpmem, hph⟩ := List.mem_map.mp hp
      obtain ⟨t, htmem, hth⟩ := List.mem_map.mp hb
      exact hdisj p (List.mem_filter.mp hpmem).1 t (List.mem_filter.mp htmem).1
        (by rw [hph, hth])

/-- C7 witness: a concrete classification on disjoint tables, with the unknown
hash "c" outside both other sets by the theorem. -/
theorem c7_classification_partition_witness :
    getTransactionsStatus exDbC7w ["a", "b", "c"] = .ok exStC7w
    ∧ ("c" ∉ exStC7w.transactionsInPool ∧ "c" ∉ exStC7w.transactionsInBlock) :=
  ⟨rfl, (c7_classification_partition exDbC7w ["a", "b", "c"] exStC7w rfl).1 "c" (by decide)⟩

/-! ## Claim C8: cache hit versus miss and the txnHash trim -/

/-- C8 counterexample: on `exDbC8`, the first default-trim read of the inputs of
"t" (a miss) returns the row without txnHash and populates the cache; the
second read (a hit) returns the row with txnHash present - the hit and miss
values differ, contradicting the claim that they are identical. -/
theorem c8_counterexample :
    (getTransactionInputs 0 exDbC8 (some []) "t" true).1 =
      [{ txnHash := none, type := "02", amount := 5, keyImage := "ki" }]
    ∧ (getTransactionInputs 0 exDbC8
        (getTransactionInputs 0 exDbC8 (some []) "t" true).2 "t" true).1 =
      [{ txnHash := some "t", type := "02", amount := 5, keyImage := "ki" }]
    ∧ ([{ txnHash := some "t", type := "02", amount := 5, keyImage := "ki" }] :
        List ApiInputRow) ≠
      [{ txnHash := none, type := "02", amount := 5, keyImage := "ki" }] :=
  ⟨rfl, rfl, by decide⟩

/-- C8 amended: without a cache backend, and on the miss path of a configured
cache, getTransactionInputs/getTransactionOutputs with default trimming return
the computed rows with txnHash removed - identically; but a subsequent cache
hit returns the rows as stored at write time, with txnHash still present. -/
theorem c8_hit_returns_untrimmed_rows :
    ∀ (now : Nat) (db : DBState) (hash : String),
      (getTransactionInputs now db none hash true).1 = trimInRows (apiInputRows db hash)
      ∧ (getTransactionInputs now db (some []) hash true).1 = trimInRows (apiInputRows db hash)
      ∧ (getTransactionInputs now db
          (getTransactionInputs now db (some []) hash true).2 hash true).1 =
        apiInputRows db hash
      ∧ (getTransactionOutputs now db none hash true).1 = trimOutRows (apiOutputRows db hash)
      ∧ (getTransactionOutputs now db (some []) hash true).1 = trimOutRows (apiOutputRows db hash)
      ∧ (getTransactionOutputs now db
          (getTransactionOutputs now db (some []) hash true).2 hash true).1 =
        apiOutputRows db hash := by
  intro now db hash
  have hnotexp : ¬ (now + 60 ≤ now) := by omega
  have hin : (getTransactionInputs now db none hash true).1 = trimInRows (apiInputRows db hash)
      ∧ (getTransactionInputs now db (some []) hash true).1 = trimInRows (apiInputRows db hash)
      ∧ (getTransactionInputs now db
          (getTransactionInputs now db (some []) hash true).2 hash true).1 =
        apiInputRows db hash := by
    by_cases hri : (apiInputRows db hash).isEmpty
    · have h0 : apiInputRows db hash = [] := by simpa using hri
      refine ⟨?_, ?_, ?_⟩ <;>
        simp [getTransactionInputs, checkCacheInRows, setCacheInRows, alistFind, h0, trimInRows]
    · refine ⟨?_, ?_, ?_⟩ <;>
        simp [getTransactionInputs, checkCacheInRows, setCacheInRows, alistFind, alistSet,
          hri, hnotexp]
  have hout : (getTransactionOutputs now db none hash true).1 = trimOutRows (apiOutputRows db hash)
      ∧ (getTransactionOutputs now db (some []) hash true).1 = trimOutRows (apiOutputRows db hash)
      ∧ (getTransactionOutputs now db
          (getTransactionOutputs now db (some []) hash true).2 hash true).1 =
        apiOutputRows db hash := by
    by_cases hro : (apiOutputRows db hash).isEmpty
    · have h0 : apiOutputRows db hash = [] := by simpa using hro
      refine ⟨?_, ?_, ?_⟩ <;>
        simp [getTransactionOutputs, checkCacheOutRows, setCacheOutRows, alistFind, h0,
          trimOutRows]
    · refine ⟨?_, ?_, ?_⟩ <;>
        simp [getTransactionOutputs, checkCacheOutRows, setCacheOutRows, alistFind, alistSet,
          hro, hnotexp]
  exact ⟨hin.1, hin.2.1, hin.2.2, hout.1, hout.2.1, hout.2.2⟩

/-! ## Claim C2: block header depth freshness -/

/-- C2 counterexample: the header of "aa" is assembled (and cached) at instant
0 against store `exDbA`, where it is the top, so its depth is 0.  At instant 6,
with the store grown to `exDbB` (top height 1), the header cache still holds
the entry (10-second TTL) and the call returns it - depth 0 - although the
freshly resolved top (the top cache having expired after 5 seconds) has height
1, so the fresh depth would be 1.  The returned depth is stale on a cache hit,
contradicting the claim. -/
theorem c2_counterexample :
    getBlockHeaderByHash 0 [] exDbA "aa" = .ok (exHdrAA, exCacheC2)
    ∧ getBlockHeaderByHash 6 exCacheC2 exDbB "aa" = .ok (exHdrAA, exCacheC2)
    ∧ getLastBlockHeader 6 exCacheC2 exDbB =
        .ok (exTopB, setCacheHdr 6 exCacheC2 "getLastBlockHeader" exTopB 5)
    ∧ exHdrAA.depth = 0
    ∧ exTopB.height = 1
    ∧ exHdrAA.depth ≠ (exTopB.height : Int) - (exHdrAA.height : Int) :=
  ⟨rfl, rfl, rfl, rfl, rfl, by decide⟩

/-- C2 amended: on a cache miss (of both the header key and the top-header
key), the returned depth is the freshly resolved top height minus the header
height; but on a cache hit within the TTL, getBlockHeaderByHash and
getBlockHeaderByHeight return the previously cached header unchanged, whose
depth reflects the top height at the time it was cached and may be stale. -/
theorem c2_depth_fresh_only_on_cache_miss :
    (∀ (now : Nat) (cache : HeaderCache) (db : DBState) (blockHash : String) (hdr : BlockHeader),
      checkCacheHdr now cache ("getBlockHeaderByHash" ++ blockHash) = some hdr →
      getBlockHeaderByHash now cache db blockHash = .ok (hdr, cache))
    ∧ (∀ (now : Nat) (cache : HeaderCache) (db : DBState) (blockHash : String)
        (hdr : BlockHeader) (c : HeaderCache) (b : BlockRow),
        checkCacheHdr now cache ("getBlockHeaderByHash" ++ blockHash) = none →
        checkCacheHdr now cache "getLastBlockHeader" = none →
        getBlockHeaderByHash now cache db blockHash = .ok (hdr, c) →
        lastRowQ db = some b →
        hdr.depth = (b.height : Int) - (hdr.height : Int))
    ∧ (∀ (now : Nat) (cache : HeaderCache) (db : DBState) (height : Nat) (hdr : BlockHeader),
        checkCacheHdr now cache ("getBlockHeaderByHeight" ++ toString height) = some hdr →
        getBlockHeaderByHeight now cache db height = .ok (hdr, cache))
    ∧ (∀ (now : Nat) (cache : HeaderCache) (db : DBState) (height : Nat)
        (hdr : BlockHeader) (c : HeaderCache) (b : BlockRow),
        checkCacheHdr now cache ("getBlockHeaderByHeight" ++ toString height) = none →
        checkCacheHdr now cache "getLastBlockHeader" = none →
        getBlockHeaderByHeight now cache db height = .ok (hdr, c) →
        lastRowQ db = some b →
        hdr.depth = (b.height : Int) - (hdr.height : Int)) := by
  refine ⟨?_, ?_, ?_, ?_⟩
  · intro now cache db bh hdr h
    simp [getBlockHeaderByHash, h]
  · intro now cache db bh hdr c b h1 h2 hok hb
    simp only [getBlockHeaderByHash, getLastBlockHeader, h1, h2, hb] at hok
    rcases hfilt : (db.blocks.filter (fun bl => bl.hash = bh)).head? with _ | b2
    · rw [hfilt] at hok
      cases hok
    · rw [hfilt] at hok
      injection hok with hok
      have hfst := congrArg Prod.fst hok
      simp only at hfst
      rw [← hfst]
  · intro now cache db ht hdr h
    simp [getBlockHeaderByHeight, h]
  · intro now cache db ht hdr c b h1 h2 hok hb
    simp only [getBlockHeaderByHeight, getLastBlockHeader, h1, h2, hb] at hok
    rcases hfilt : (db.blocks.filter (fun bl => bl.height = ht)).head? with _ | b2
    · rw [hfilt] at hok
      cases hok
    · rw [hfilt] at hok
      injection hok with hok
      have hfst := congrArg Prod.fst hok
      simp only at hfst
      rw [← hfst]

/-- C2 witness: the hit rule at the stale state of the counterexample, and the
miss rule at the cold call that assembled the header. -/
theorem c2_depth_fresh_only_on_cache_miss_witness :
    (checkCacheHdr 6 exCacheC2 ("getBlockHeaderByHash" ++ "aa") = some exHdrAA
      ∧ getBlockHeaderByHash 6 exCacheC2 exDbB "aa" = .ok (exHdrAA, exCacheC2))
    ∧ (checkCacheHdr 0 [] ("getBlockHeaderByHash" ++ "aa") = none
      ∧ checkCacheHdr 0 [] "getLastBlockHeader" = none
      ∧ getBlockHeaderByHash 0 [] exDbA "aa" = .ok (exHdrAA, exCacheC2)
      ∧ lastRowQ exDbA = some { hash := "aa", height := 0, timestamp := 0 }
      ∧ exHdrAA.depth =
          (({ hash := "aa", height := 0, timestamp := 0 : BlockRow }).height : Int) -
            (exHdrAA.height : Int)) :=
  ⟨⟨rfl, c2_depth_fresh_only_on_cache_miss.1 6 exCacheC2 exDbB "aa" exHdrAA rfl⟩,
   ⟨rfl, rfl, rfl, rfl,
    c2_depth_fresh_only_on_cache_miss.2.1 0 [] exDbA "aa" exHdrAA exCacheC2
      { hash := "aa", height := 0, timestamp := 0 } rfl rfl rfl rfl⟩⟩

/-! ## Claim C10: wallet-sync block count bound -/

theorem insSorted_length {α : Type} (le : α → α → Bool) (a : α) (l : List α) :
    (insSorted le a l).length = l.length + 1 := by
  induction l with
  | nil => rfl
  | cons b bs ih =>
    simp only [insSorted]
    split <;> simp [ih]

theorem sortByB_length {α : Type} (le : α → α → Bool) (l : List α) :
    (sortByB le l).length = l.length := by
  induction l with
  | nil => rfl
  | cons a as ih =>
    simp only [sortByB, List.foldr_cons] at *
    rw [insSorted_length, ih]
    rfl

theorem nodup_bounded_length (l : List Nat) (lo n : Nat) (hn : l.Nodup)
    (hb : ∀ x ∈ l, lo ≤ x ∧ x < lo + n) : l.length ≤ n := by
  have h1 : l.toFinset.card = l.length := List.toFinset_card_of_nodup hn
  have h2 : l.toFinset ⊆ Finset.Ico lo (lo + n) := by
    intro x hx
    rw [Finset.mem_Ico]
    exact hb x (List.mem_toFinset.mp hx)
  have h3 := Finset.card_le_card h2
  rw [h1, Nat.card_Ico] at h3
  omega

theorem exceptMap_ok_length {α β : Type} (f : α → Except Err β) (l : List α) (r : List β)
    (h : exceptMap f l = .ok r) : r.length = l.length := by
  induction l generalizing r with
  | nil =>
    simp only [exceptMap] at h
    injection h with h
    simp [← h]
  | cons a as ih =>
    simp only [exceptMap] at h
    cases hf : f a with
    | error e => rw [hf] at h; cases h
    | ok b =>
      rw [hf] at h
      cases hr : exceptMap f as with
      | error e => rw [hr] at h; cases h
      | ok bs =>
        rw [hr] at h
        injection h with h
        rw [← h]
        simp [ih bs hr]

theorem filter_height_range_length (db : DBState) (lo n : Nat)
    (hnodup : (db.blocks.map (fun b => b.height)).Nodup) :
    (db.blocks.filter (fun b => lo ≤ b.height ∧ b.height < lo + n)).length ≤ n := by
  have hsub : List.Sublist
      ((db.blocks.filter (fun b => lo ≤ b.height ∧ b.height < lo + n)).map
        (fun b => b.height))
      (db.blocks.map (fun b => b.height)) :=
    (List.filter_sublist _).map _
  have hnd := hnodup.sublist hsub
  rw [← List.length_map (db.blocks.filter (fun b => lo ≤ b.height ∧ b.height < lo + n))
    (fun b => b.height)]
  refine nodup_bounded_length _ lo n hnd ?_
  intro x hx
  obtain ⟨b, hb, rfl⟩ := List.mem_map.mp hx
  have hmem := List.mem_filter.mp hb
  simpa using hmem.2

/-- C10: every wallet-sync operation first normalizes its block count with
checkBlockCount (default 100, absolute value, capped at 100), so - for a store
whose block heights are unique, as they are under the collector's schema - none
of getWalletSyncDataByHeight, getWalletSyncData, legacyGetWalletSyncDataLite or
legacyGetWalletSyncData ever selects or returns more than 100 blocks. -/
theorem c10_wallet_sync_never_exceeds_100_blocks :
    ∀ (db : DBState) (blockCount : Option Int) (scanHeight startHeight startTimestamp : Nat)
      (checkpoints : List String) (skip : Bool),
      checkBlockCount blockCount ≤ 100
      ∧ ((db.blocks.map (fun b => b.height)).Nodup →
          (getWalletSyncDataByHeightRows db scanHeight blockCount).length ≤ 100)
      ∧ ((db.blocks.map (fun b => b.height)).Nodup →
          ∀ blocks2, getWalletSyncDataByHeight db scanHeight blockCount = .ok blocks2 →
            blocks2.length ≤ 100)
      ∧ ((db.blocks.map (fun b => b.height)).Nodup →
          ∀ rows, getWalletSyncDataRows db checkpoints blockCount = .ok rows →
            rows.length ≤ 100)
      ∧ (legacyGetWalletSyncDataLiteRows db startHeight blockCount).length ≤ 100
      ∧ (∀ rows, legacyGetWalletSyncDataRows db startHeight startTimestamp checkpoints
            blockCount skip = .ok rows → rows.length ≤ 100) := by
  have hcap : ∀ bc, checkBlockCount bc ≤ 100 := by
    intro bc
    rcases bc with _ | v
    · decide
    · simp only [checkBlockCount]
      split_ifs <;> omega
  have hrows : ∀ (db : DBState) (lo : Nat) (bc : Option Int),
      (db.blocks.map (fun b => b.height)).Nodup →
      (getWalletSyncDataByHeightRows db lo bc).length ≤ 100 := by
    intro db lo bc hnodup
    unfold getWalletSyncDataByHeightRows
    rw [List.length_map, sortByB_length]
    exact le_trans (filter_height_range_length db lo (checkBlockCount bc) hnodup) (hcap bc)
  intro db bc scanHeight startHeight startTimestamp checkpoints skip
  refine ⟨hcap bc, hrows db scanHeight bc, ?_, ?_, ?_, ?_⟩
  · intro hnodup blocks2 hok
    rw [exceptMap_ok_length _ _ _ hok]
    exact hrows db scanHeight bc hnodup
  · intro hnodup rows hok
    unfold getWalletSyncDataRows at hok
    by_cases he : checkpoints.isEmpty
    · rw [if_pos he] at hok
      cases hok
    · rw [if_neg he] at hok
      injection hok with hok
      rw [← hok]
      exact hrows db _ _ hnodup
  · unfold legacyGetWalletSyncDataLiteRows
    exact le_trans (List.length_take_le _ _) (hcap bc)
  · intro rows hok
    unfold legacyGetWalletSyncDataRows at hok
    cases hlast : lastRowQ db with
    | none => rw [hlast] at hok; cases hok
    | some top =>
      rw [hlast] at hok
      injection hok with hok
      rw [← hok]
      exact le_trans (List.length_take_le _ _) (hcap bc)

/-- C10 witness: the bounds at a concrete two-block store with an oversized
requested count of 250. -/
theorem c10_wallet_sync_never_exceeds_100_blocks_witness :
    (exDbC10.blocks.map (fun b => b.height)).Nodup
    ∧ checkBlockCount (some 250) ≤ 100
    ∧ (getWalletSyncDataByHeightRows exDbC10 0 (some 250)).length ≤ 100 :=
  ⟨by decide,
   (c10_wallet_sync_never_exceeds_100_blocks exDbC10 (some 250) 0 0 0 [] false).1,
   (c10_wallet_sync_never_exceeds_100_blocks exDbC10 (some 250) 0 0 0 [] false).2.1 (by decide)⟩

/-! ## Claim C1: block assembler consistency invariants -/

theorem txnChecks_none_inv (t : WalletTxn) (h : txnChecks t = none) :
    (t.meta.inputsTotal ≠ 0 → inSum t = t.meta.inputsTotal ∧ inSum t - outSum t = t.meta.fee)
    ∧ outSum t = t.meta.outputsTotal := by
  unfold txnChecks at h
  split_ifs at h with h1 h2 h3 h4
  push_neg at h2 h4
  exact ⟨fun hne => ⟨h2 hne, h4 hne⟩, not_not.mp h3⟩

theorem legacyTxnChecks_none_inv (t : LegacyTxn) (h : legacyTxnChecks t = none) :
    legacyInSum t = t.meta.inputsTotal ∧ legacyOutSum t = t.meta.outputsTotal
    ∧ legacyInSum t - legacyOutSum t = t.meta.fee := by
  unfold legacyTxnChecks at h
  split_ifs at h with h1 h2 h3 h4
  exact ⟨not_not.mp h2, not_not.mp h3, not_not.mp h4⟩

theorem checkTxns_ok_all (l : List WalletTxn) (r : List CleanWalletTxn)
    (h : checkTxns l = .ok r) : ∀ t ∈ l, txnChecks t = none := by
  induction l generalizing r with
  | nil =>
    intro t ht
    cases ht
  | cons a as ih =>
    intro t ht
    simp only [checkTxns] at h
    cases hc : txnChecks a with
    | some m => rw [hc] at h; cases h
    | none =>
      rw [hc] at h
      cases hr : checkTxns as with
      | error e => rw [hr] at h; cases h
      | ok rr =>
        rcases List.mem_cons.mp ht with rfl | ht2
        · exact hc
        · exact ih rr hr t ht2

theorem checkLegacyTxns_ok_all (l : List LegacyTxn) (r : List CleanLegacyTxn)
    (h : checkLegacyTxns l = .ok r) : ∀ t ∈ l, legacyTxnChecks t = none := by
  induction l generalizing r with
  | nil =>
    intro t ht
    cases ht
  | cons a as ih =>
    intro t ht
    simp only [checkLegacyTxns] at h
    cases hc : legacyTxnChecks a with
    | some m => rw [hc] at h; cases h
    | none =>
      rw [hc] at h
      cases hr : checkLegacyTxns as with
      | error e => rw [hr] at h; cases h
      | ok rr =>
        rcases List.mem_cons.mp ht with rfl | ht2
        · exact hc
        · exact ih rr hr t ht2

theorem checkTxns_shape (l : List WalletTxn) :
    (∃ r, checkTxns l = .ok r) ∨ (∃ m, checkTxns l = .error (.dataConsistency m)) := by
  induction l with
  | nil => exact Or.inl ⟨[], rfl⟩
  | cons a as ih =>
    simp only [checkTxns]
    cases hc : txnChecks a with
    | some m => exact Or.inr ⟨m, rfl⟩
    | none =>
      rcases ih with ⟨r, hr⟩ | ⟨m, hm⟩
      · rw [hr]
        exact Or.inl ⟨cleanTxn a :: r, rfl⟩
      · rw [hm]
        exact Or.inr ⟨m, rfl⟩

theorem checkLegacyTxns_shape (l : List LegacyTxn) :
    (∃ r, checkLegacyTxns l = .ok r) ∨ (∃ m, checkLegacyTxns l = .error (.dataConsistency m)) := by
  induction l with
  | nil => exact Or.inl ⟨[], rfl⟩
  | cons a as ih =>
    simp only [checkLegacyTxns]
    cases hc : legacyTxnChecks a with
    | some m => exact Or.inr ⟨m, rfl⟩
    | none =>
      rcases ih with ⟨r, hr⟩ | ⟨m, hm⟩
      · rw [hr]
        exact Or.inl ⟨cleanLegacyTxn a :: r, rfl⟩
      · rw [hm]
        exact Or.inr ⟨m, rfl⟩

/-- C1 counterexample: in the legacy shape the coinbase transaction's output
sum is never compared with its recorded totalOutputsAmount.  On `exDbC1bad` the
coinbase "cb" records totalOutputsAmount 7 while its stored outputs sum to 5,
yet the legacy assembly succeeds and returns the block - so the claim's
"for every transaction the sum of its output amounts equals the recorded
totalOutputsAmount" fails for a successfully assembled legacy block. -/
theorem c1_counterexample :
    buildLegacyWalletDataBlock exDbC1bad exBlkC1bad false =
      .ok { blockHash := "B", blockHeight := 3, blockTimestamp := 9,
            coinbaseTX := some { hash := "cb", txPublicKey := "pkc", unlockTime := "0",
                                 outputs := [{ amount := 5, key := "k", globalIndex := 0 }] },
            transactions := [] }
    ∧ exDbC1bad.transactions = [{ txnHash := "cb", blockHash := "B", publicKey := "pkc",
                                  paymentId := "", unlockTimeString := "0", fee := 0,
                                  totalInputsAmount := 0, totalOutputsAmount := 7 }]
    ∧ ((legacyCoinbaseOutputs exDbC1bad "B").map (fun o => o.amount)).sum = 5
    ∧ (5 : Int) ≠ 7 :=
  ⟨rfl, rfl, rfl, by decide⟩

/-- C1 amended: when assembly fulfils, every mapped transaction of the current
shape satisfies the balance invariants - coinbase transactions
(inputsTotal = 0) exempt from the input and fee checks but not the output
check - and every non-coinbase transaction of the legacy shape satisfies all
three, the legacy coinbase being checked only for having at least one output
(its output sum is never compared with its recorded total); and any violation
of the checked invariants rejects the block with an Internal Data Consistency
Error (given, in the legacy shape, that the block has a coinbase row at all),
no block data being returned. -/
theorem c1_assembler_invariants :
    (∀ (db : DBState) (block : SyncBlockRow) (obj : WalletDataBlock),
      buildWalletDataBlock db block = .ok obj →
      ∀ t ∈ assembledTxns db block.blockHash,
        (t.meta.inputsTotal ≠ 0 →
          inSum t = t.meta.inputsTotal ∧ inSum t - outSum t = t.meta.fee)
        ∧ outSum t = t.meta.outputsTotal)
    ∧ (∀ (db : DBState) (block : LegacyBlockRow) (skip : Bool) (obj : LegacyWalletBlock),
        buildLegacyWalletDataBlock db block skip = .ok obj →
        legacyCoinbaseOutputs db block.hash ≠ []
        ∧ ∀ t ∈ legacyAssembledTxns db block.hash,
            legacyInSum t = t.meta.inputsTotal ∧ legacyOutSum t = t.meta.outputsTotal
            ∧ legacyInSum t - legacyOutSum t = t.meta.fee)
    ∧ (∀ (db : DBState) (block : SyncBlockRow),
        (∃ t ∈ assembledTxns db block.blockHash,
          ¬((t.meta.inputsTotal ≠ 0 →
              inSum t = t.meta.inputsTotal ∧ inSum t - outSum t = t.meta.fee)
            ∧ outSum t = t.meta.outputsTotal)) →
        isDataConsistencyError (buildWalletDataBlock db block) = true)
    ∧ (∀ (db : DBState) (block : LegacyBlockRow) (skip : Bool),
        (legacyCoinbaseRow db block.hash).isSome →
        (∃ t ∈ legacyAssembledTxns db block.hash,
          ¬(legacyInSum t = t.meta.inputsTotal ∧ legacyOutSum t = t.meta.outputsTotal
            ∧ legacyInSum t - legacyOutSum t = t.meta.fee)) →
        isDataConsistencyError (buildLegacyWalletDataBlock db block skip) = true) := by
  refine ⟨?_, ?_, ?_, ?_⟩
  · intro db block obj hok t ht
    simp only [buildWalletDataBlock] at hok
    by_cases hcnt : block.txnCount ≠ some (assembledTxns db block.blockHash).length
    · rw [if_pos hcnt] at hok
      cases hok
    · rw [if_neg hcnt] at hok
      cases hchk : checkTxns (assembledTxns db block.blockHash) with
      | error e => rw [hchk] at hok; cases hok
      | ok r => exact txnChecks_none_inv t (checkTxns_ok_all _ r hchk t ht)
  · intro db block skip obj hok
    simp only [buildLegacyWalletDataBlock] at hok
    cases hcb : legacyCoinbaseRow db block.hash with
    | none => rw [hcb] at hok; cases hok
    | some cbRow =>
      simp only [hcb] at hok
      by_cases hemp : (legacyCoinbaseOutputs db block.hash).isEmpty
      · rw [if_pos hemp] at hok
        cases hok
      · rw [if_neg hemp] at hok
        refine ⟨by simpa using hemp, ?_⟩
        by_cases hcnt : block.txnCount ≠ some ((legacyAssembledTxns db block.hash).length + 1)
        · rw [if_pos hcnt] at hok
          cases hok
        · rw [if_neg hcnt] at hok
          intro t ht
          cases hchk : checkLegacyTxns (legacyAssembledTxns db block.hash) with
          | error e => rw [hchk] at hok; cases hok
          | ok r => exact legacyTxnChecks_none_inv t (checkLegacyTxns_ok_all _ r hchk t ht)
  · intro db block hbad
    obtain ⟨t, ht, hviol⟩ := hbad
    simp only [buildWalletDataBlock]
    by_cases hcnt : block.txnCount ≠ some (assembledTxns db block.blockHash).length
    · rw [if_pos hcnt]
      rfl
    · rw [if_neg hcnt]
      have hne : txnChecks t ≠ none := fun hnone => hviol (txnChecks_none_inv t hnone)
      rcases checkTxns_shape (assembledTxns db block.blockHash) with ⟨r, hr⟩ | ⟨m, hm⟩
      · exact absurd (checkTxns_ok_all _ r hr t ht) hne
      · rw [hm]
        rfl
  · intro db block skip hcb hbad
    obtain ⟨t, ht, hviol⟩ := hbad
    obtain ⟨cbRow, hcbRow⟩ := Option.isSome_iff_exists.mp hcb
    simp only [buildLegacyWalletDataBlock, hcbRow]
    by_cases hemp : (legacyCoinbaseOutputs db block.hash).isEmpty
    · rw [if_pos hemp]
      rfl
    · rw [if_neg hemp]
      by_cases hcnt : block.txnCount ≠ some ((legacyAssembledTxns db block.hash).length + 1)
      · rw [if_pos hcnt]
        rfl
      · rw [if_neg hcnt]
        have hne : legacyTxnChecks t ≠ none :=
          fun hnone => hviol (legacyTxnChecks_none_inv t hnone)
        rcases checkLegacyTxns_shape (legacyAssembledTxns db block.hash) with ⟨r, hr⟩ | ⟨m, hm⟩
        · exact absurd (checkLegacyTxns_ok_all _ r hr t ht) hne
        · rw [hm]
          rfl

/-- C1 witness: the invariants at the fulfilled assembly of the consistent
store `exDbC1w` (both shapes), and the Data Consistency rejections at the
inconsistent stores `exDbC1v` / `exDbC1vL`. -/
theorem c1_assembler_invariants_witness :
    (buildWalletDataBlock exDbC1w exBlkC1w =
      .ok { blockHash := "B", height := 5, timestamp := 9,
            transactions := [{ hash := "cb", publicKey := "pkc", unlockTime := "0",
                               paymentId := "", inputs := [],
                               outputs := [{ index := 0, globalIndex := 0, key := "kcb",
                                             amount := 29, type := "00" }] },
                             { hash := "t1", publicKey := "pk1", unlockTime := "0",
                               paymentId := "p",
                               inputs := [{ keyImage := "ki1", amount := 10, type := "02" }],
                               outputs := [{ index := 0, globalIndex := 1, key := "kt1",
                                             amount := 8, type := "00" }] }] })
    ∧ ((exWT1.meta.inputsTotal ≠ 0 →
          inSum exWT1 = exWT1.meta.inputsTotal ∧ inSum exWT1 - outSum exWT1 = exWT1.meta.fee)
        ∧ outSum exWT1 = exWT1.meta.outputsTotal)
    ∧ legacyCoinbaseOutputs exDbC1w exBlkC1wL.hash ≠ []
    ∧ isDataConsistencyError (buildWalletDataBlock exDbC1v exBlkC1v) = true
    ∧ isDataConsistencyError (buildLegacyWalletDataBlock exDbC1vL exBlkC1vL false) = true :=
  ⟨rfl,
   c1_assembler_invariants.1 exDbC1w exBlkC1w
     { blockHash := "B", height := 5, timestamp := 9,
       transactions := [{ hash := "cb", publicKey := "pkc", unlockTime := "0",
                          paymentId := "", inputs := [],
                          outputs := [{ index := 0, globalIndex := 0, key := "kcb",
                                        amount := 29, type := "00" }] },
                        { hash := "t1", publicKey := "pk1", unlockTime := "0",
                          paymentId := "p",
                          inputs := [{ keyImage := "ki1", amount := 10, type := "02" }],
                          outputs := [{ index := 0, globalIndex := 1, key := "kt1",
                                        amount := 8, type := "00" }] }] }
     rfl exWT1 (by decide),
   (c1_assembler_invariants.2.1 exDbC1w exBlkC1wL false
     { blockHash := "B", blockHeight := 5, blockTimestamp := 9,
       coinbaseTX := some { hash := "cb", txPublicKey := "pkc", unlockTime := "0",
                            outputs := [{ amount := 29, key := "kcb", globalIndex := 0 }] },
       transactions := [{ hash := "t1",
                          inputs := [{ amount := 10, k_image := "ki1" }],
                          outputs := [{ amount := 8, key := "kt1", globalIndex := 1 }],
                          paymentID := "p", txPublicKey := "pk1", unlockTime := "0" }] }
     rfl).1,
   c1_assembler_invariants.2.2.1 exDbC1v exBlkC1v ⟨exWTv, by decide, by decide⟩,
   c1_assembler_invariants.2.2.2 exDbC1vL exBlkC1vL false rfl
     ⟨exLTv, by decide, by decide⟩⟩

/-! ## Claims C5 and C6: the random output sampler -/

theorem bumpCount_fst (l : List (Int × Nat)) (a : Int) (m : Nat) :
    (bumpCount l a m).map (fun p => p.1) =
      if a ∈ l.map (fun p => p.1) then l.map (fun p => p.1)
      else l.map (fun p => p.1) ++ [a] := by
  induction l with
  | nil => simp [bumpCount]
  | cons p rest ih =>
    obtain ⟨b, c⟩ := p
    by_cases hb : b = a
    · subst hb
      simp [bumpCount]
    · have hab : ¬ a = b := fun hh => hb hh.symm
      by_cases hm : a ∈ rest.map (fun p => p.1) <;>
        simp [bumpCount, hb, ih, hm, hab]

theorem mixinCountsOf_fst (amounts : List Int) (m : Nat) :
    (mixinCountsOf amounts m).map (fun p => p.1) = dedupedOf amounts := by
  suffices h : ∀ acc : List (Int × Nat),
      ((amounts.foldl (fun acc2 a => bumpCount acc2 a m) acc).map (fun p => p.1)) =
        amounts.foldl (fun acc2 a => if a ∈ acc2 then acc2 else acc2 ++ [a])
          (acc.map (fun p => p.1)) by
    simpa [mixinCountsOf, dedupedOf] using h []
  intro acc
  induction amounts generalizing acc with
  | nil => simp
  | cons a as ih =>
    simp only [List.foldl_cons]
    rw [ih, bumpCount_fst]

theorem dedupe_foldl_ne_nil (l : List Int) :
    ∀ acc : List Int, acc ≠ [] →
      l.foldl (fun acc2 a => if a ∈ acc2 then acc2 else acc2 ++ [a]) acc ≠ [] := by
  induction l with
  | nil =>
    intro acc h
    simpa using h
  | cons a as ih =>
    intro acc h
    simp only [List.foldl_cons]
    apply ih
    by_cases hm : a ∈ acc <;> simp [hm, h]

theorem dedupedOf_ne_nil (a : Int) (as : List Int) : dedupedOf (a :: as) ≠ [] := by
  unfold dedupedOf
  simp only [List.foldl_cons]
  apply dedupe_foldl_ne_nil
  simp

theorem loopDraw_some_error (mixin : Nat) (counts : List (Int × Nat)) :
    ∀ (rows : List ToimRow) (s : List Nat) (e : Err),
      loopDraw mixin counts rows s = some (.error e) →
      e = .insufficientMixins ∧ ∃ t ∈ rows, t.globalIndex < mixin := by
  intro rows
  induction rows with
  | nil =>
    intro s e h
    simp [loopDraw] at h
  | cons row rest ih =>
    intro s e h
    simp only [loopDraw] at h
    by_cases hg : row.globalIndex < mixin
    · rw [if_pos hg] at h
      simp only [Option.some.injEq] at h
      injection h with h2
      exact ⟨h2.symm, row, List.mem_cons_self row rest, hg⟩
    · rw [if_neg hg] at h
      cases hd : drawDistinct s row.globalIndex (lookupCount counts row.amount) [] with
      | none => simp only [hd] at h; cases h
      | some pair =>
        obtain ⟨rnds, s1⟩ := pair
        simp only [hd] at h
        cases hl : loopDraw mixin counts rest s1 with
        | none => simp only [hl] at h; cases h
        | some r2 =>
          simp only [hl] at h
          cases r2 with
          | error e2 =>
            simp only [Option.some.injEq] at h
            injection h with h2
            obtain ⟨he, t, ht, hlt⟩ := ih s1 e2 hl
            exact ⟨by rw [← h2, he], t, List.mem_cons_of_mem row ht, hlt⟩
          | ok pairs => simp at h

theorem loopDraw_some_ok (mixin : Nat) (counts : List (Int × Nat)) :
    ∀ (rows : List ToimRow) (s : List Nat) (pairs : List (Int × Nat)),
      loopDraw mixin counts rows s = some (.ok pairs) →
      ∀ t ∈ rows, ¬ t.globalIndex < mixin := by
  intro rows
  induction rows with
  | nil =>
    intro s pairs _ t ht
    cases ht
  | cons row rest ih =>
    intro s pairs h t ht
    simp only [loopDraw] at h
    by_cases hg : row.globalIndex < mixin
    · rw [if_pos hg] at h
      simp at h
    · rw [if_neg hg] at h
      cases hd : drawDistinct s row.globalIndex (lookupCount counts row.amount) [] with
      | none => simp only [hd] at h; cases h
      | some pair =>
        obtain ⟨rnds, s1⟩ := pair
        simp only [hd] at h
        cases hl : loopDraw mixin counts rest s1 with
        | none => simp only [hl] at h; cases h
        | some r2 =>
          simp only [hl] at h
          cases r2 with
          | error e2 => simp at h
          | ok pairs2 =>
            rcases List.mem_cons.mp ht with rfl | ht2
            · exact hg
            · exact ih s1 pairs2 hl t ht2

/-- C6 counterexample: with the maximum known global index for amount 100 equal
to the requested mixin count 3, the sampler still rejects with
InsufficientMixins (the guard compares against mixin + 1), contradicting the
claim that no InsufficientMixins is raised when the maximum is at least the
requested count. -/
theorem c6_counterexample :
    getRandomOutputsForAmounts exDbC6 [100] 3 [] = some (.error .insufficientMixins)
    ∧ exDbC6.toim = [{ amount := 100, globalIndex := 3 }]
    ∧ ¬ ((3 : Nat) < 3) :=
  ⟨rfl, rfl, by decide⟩

/-- C6 amended: provided every requested amount has a stored maximum and the
run terminates, the sampler rejects with InsufficientMixins exactly when some
requested amount's maximum known global index is less than mixin + 1
(equivalently, at most the requested mixin count); when every maximum is at
least mixin + 1, the run never produces InsufficientMixins. -/
theorem c6_insufficient_iff_max_below_mixin_plus_one :
    ∀ (db : DBState) (amounts : List Int) (mixinReq : Nat) (stream : List Nat)
      (r : Except Err (List OutGroup)),
      amounts ≠ [] →
      (db.toim.filter (fun t => t.amount ∈ dedupedOf amounts)).length =
        (dedupedOf amounts).length →
      getRandomOutputsForAmounts db amounts mixinReq stream = some r →
      (r = .error .insufficientMixins ↔
        ∃ t ∈ db.toim.filter (fun t => t.amount ∈ dedupedOf amounts),
          t.globalIndex < mixinReq + 1) := by
  intro db amounts mixinReq stream r hne hmax hrun
  simp only [getRandomOutputsForAmounts] at hrun
  rw [mixinCountsOf_fst] at hrun
  have hde : ¬ ((dedupedOf amounts).isEmpty = true) := by
    rcases amounts with _ | ⟨a, as⟩
    · exact absurd rfl hne
    · simpa using dedupedOf_ne_nil a as
  rw [if_neg hde] at hrun
  have hlen : ¬ ((db.toim.filter (fun t => t.amount ∈ dedupedOf amounts)).length ≠
      (dedupedOf amounts).length) := by
    simp [hmax]
  rw [if_neg hlen] at hrun
  cases hl : loopDraw (mixinReq + 1) (mixinCountsOf amounts (mixinReq + 1))
      (db.toim.filter (fun t => t.amount ∈ dedupedOf amounts)) stream with
  | none => simp only [hl] at hrun; cases hrun
  | some r2 =>
    simp only [hl] at hrun
    cases r2 with
    | error e =>
      simp only [Option.some.injEq] at hrun
      obtain ⟨he, t, ht, hlt⟩ := loopDraw_some_error _ _ _ _ _ hl
      constructor
      · intro _
        exact ⟨t, ht, hlt⟩
      · intro _
        rw [← hrun, he]
    | ok pairs =>
      simp only [Option.some.injEq] at hrun
      constructor
      · intro hcase
        rw [← hrun] at hcase
        cases hcase
      · rintro ⟨t, ht, hlt⟩
        exact absurd hlt (loopDraw_some_ok _ _ _ _ _ hl t ht)

/-- C6 witness: a fulfilled run on a store with maximum 10 for amount 100 and
requested mixin 2, where no amount falls below mixin + 1. -/
theorem c6_insufficient_iff_witness :
    getRandomOutputsForAmounts exDbC6w [100] 2 [0, 1, 2] = some (.ok exRespC6w)
    ∧ ((.ok exRespC6w : Except Err (List OutGroup)) = .error .insufficientMixins ↔
        ∃ t ∈ exDbC6w.toim.filter (fun t => t.amount ∈ dedupedOf [100]),
          t.globalIndex < 2 + 1) :=
  ⟨rfl,
   c6_insufficient_iff_max_below_mixin_plus_one exDbC6w [100] 2 [0, 1, 2] (.ok exRespC6w)
     (by simp) rfl rfl⟩

/-- C5 counterexample: sample([100, 100], 2) on a store with ten outputs for
amount 100 (so at least 4 exist) returns six distinct global indices in total
for amount 100 - the incremented mixin (2 + 1 = 3) accumulated over the two
occurrences - not the four the claim states. -/
theorem c5_counterexample :
    getRandomOutputsForAmounts exDbC5 [100, 100] 2 [0, 1, 2, 3, 4, 5] = some (.ok exRespC5)
    ∧ (exDbC5.outputs.filter (fun o => o.amount = 100)).length = 10
    ∧ totalIndicesFor exRespC5 100 = 6
    ∧ (6 : Nat) ≠ 4 :=
  ⟨rfl, rfl, rfl, by decide⟩

/-- C5 amended: sample([100, 100], 2) draws mixin + 1 = 3 distinct indices per
occurrence - six in total for amount 100, with no duplicates, partitioned into
two per-request groups of three - given enough outputs for the accumulated
requirement; and with only three outputs for the amount (maximum global index
2) it rejects with InsufficientMixins for every randomness stream. -/
theorem c5_repeated_amount_draws_six :
    getRandomOutputsForAmounts exDbC5 [100, 100] 2 [0, 1, 2, 3, 4, 5] = some (.ok exRespC5)
    ∧ totalIndicesFor exRespC5 100 = 6
    ∧ (allIndicesFor exRespC5 100).Nodup
    ∧ exRespC5.map (fun g => g.outs.length) = [3, 3]
    ∧ (∀ stream : List Nat,
        getRandomOutputsForAmounts exDbC5s [100, 100] 2 stream =
          some (.error .insufficientMixins)) :=
  ⟨rfl, rfl, by decide, rfl, fun _ => rfl⟩
